import Mathlib

/-!
Verification development for the per-turn dialogue state resolution engine of
the b2b-agent-hub backend (src/backend/agent_pipeline.py and
src/backend/utils.py).  The Python functions are shallowly embedded as
executable Lean definitions over character lists; regular-expression searches
are embedded as explicit scanning functions with the same match semantics
(word boundaries, greedy quantifiers with the backtracking behaviour the
patterns actually exhibit on their argument shapes).
-/

namespace B2B

/-! ## Characters -/

/-- ASCII lower-case conversion (Python str.lower on ASCII letters). -/
def lc (c : Char) : Char :=
  if 'A' ≤ c ∧ c ≤ 'Z' then Char.ofNat (c.toNat + 32) else c

/-- ASCII digit test. -/
def isDig (c : Char) : Bool := '0' ≤ c && c ≤ '9'

/-- ASCII lower-case letter test. -/
def isLow (c : Char) : Bool := 'a' ≤ c && c ≤ 'z'

/-- ASCII upper-case letter test. -/
def isUpp (c : Char) : Bool := 'A' ≤ c && c ≤ 'Z'

/-- Alphanumeric character (the regex class [0-9A-Z] under IGNORECASE). -/
def isAlnumC (c : Char) : Bool := isDig c || isLow c || isUpp c

/-- Word character for the regex word-boundary \b (ASCII \w). -/
def isWordC (c : Char) : Bool := isAlnumC c || c = '_'

/-- Whitespace characters matched by the regex \s (the ones relevant here). -/
def isSpaceC (c : Char) : Bool := c = ' ' || c = '\t' || c = '\n' || c = '\r'

/-! ## normalize_text (src/backend/utils.py)

Python lowercases, strips diacritics, replaces every character outside
[a-z0-9\s\-_/.] by a space, collapses whitespace runs and strips the ends.
We model it for ASCII input: lowercase, map characters outside the kept set
to a space, then split into words and rejoin with single spaces. -/

/-- Characters kept by the normalization character class. -/
def keptChar (c : Char) : Bool :=
  isLow c || isDig c || c = '-' || c = '_' || c = '/' || c = '.'

/-- Per-character normalization step: lowercase, then keep or blank out. -/
def normChar (c : Char) : Char :=
  let d := lc c
  if keptChar d then d else ' '

/-- Split a character list into maximal runs not containing a space. -/
def wordsCore (cs : List Char) : List (List Char) :=
  let step := fun (st : List (List Char) × List Char) (c : Char) =>
    if c = ' ' then
      (if st.2.isEmpty then st else (st.1 ++ [st.2.reverse], ([] : List Char)))
    else (st.1, c :: st.2)
  let fin := cs.foldl step ([], [])
  if fin.2.isEmpty then fin.1 else fin.1 ++ [fin.2.reverse]

/-- Join words with single spaces. -/
def joinWords : List (List Char) → List Char
  | [] => []
  | [w] => w
  | w :: ws => w ++ ' ' :: joinWords ws

/-- Embedding of normalize_text for ASCII input. -/
def normalizeTextL (cs : List Char) : List Char :=
  joinWords (wordsCore (cs.map normChar))

/-- String wrapper for normalize_text. -/
def normalizeText (s : String) : String :=
  String.mk (normalizeTextL s.data)

/-- Number of whitespace-separated words (Python len(text.split())). -/
def wordCountL (cs : List Char) : Nat := (wordsCore cs).length

/-- Word list of a string (Python text.split()). -/
def splitWordsL (cs : List Char) : List (List Char) := wordsCore cs

/-! ## Substring and word-boundary phrase search -/

/-- Python substring containment (needle in haystack) on character lists. -/
def hasSubL (p : List Char) : List Char → Bool
  | [] => p.isEmpty
  | c :: rest => p.isPrefixOf (c :: rest) || hasSubL p rest

/-- Substring containment, string interface: does n contain p. -/
def containsSub (n p : String) : Bool := hasSubL p.data n.data

/-- Word boundary holds before a position whose preceding character is prev
(none at the start of the text), for a pattern starting with a word char. -/
def boundaryBefore : Option Char → Bool
  | none => true
  | some c => !isWordC c

/-- Word boundary holds after a match when the rest starts with a non-word
character or is empty, for a pattern ending with a word char. -/
def boundaryAfter : List Char → Bool
  | [] => true
  | c :: _ => !isWordC c

/-- Scan for the literal phrase p with \b on both sides (the phrase starts
and ends with word characters, as all embedded phrases do). -/
def hasWordPhraseAux (p : List Char) : Option Char → List Char → Bool
  | _, [] => false
  | prev, c :: rest =>
    (boundaryBefore prev && p.isPrefixOf (c :: rest) &&
      boundaryAfter ((c :: rest).drop p.length))
    || hasWordPhraseAux p (some c) rest

/-- Search for \b-delimited phrase p inside n (Python pattern.search). -/
def hasWordPhrase (n p : String) : Bool := hasWordPhraseAux p.data none n.data

/-- Alternation of \b-delimited literal phrases. -/
def hasAnyWordPhrase (n : String) (ps : List String) : Bool :=
  ps.any (hasWordPhrase n)

/-! ## The keyword regexes of agent_pipeline.py (literal alternations) -/

/-- LISTING_RE search on normalized text. -/
def listingSearch (n : String) : Bool :=
  hasAnyWordPhrase n ["liet ke", "danh sach", "list", "cac ma", "nhung ma", "ma nao"]

/-- PRICE_RE search on normalized text. -/
def priceSearch (n : String) : Bool :=
  hasAnyWordPhrase n
    ["gia", "chiet khau", "bao gia", "ton kho", "kho", "co san", "con hang",
     "co hang", "giao", "vat"]

/-- RELATED_QUERY_RE search on normalized text. -/
def relatedSearch (n : String) : Bool :=
  hasAnyWordPhrase n
    ["di kem", "phu kien", "linh kien", "kem theo", "di cung", "chup",
     "chup khi", "than giu", "cach dien", "su", "orifice", "insulator", "body"]

/-- BUNDLE_QUERY_RE search on normalized text. -/
def bundleQuerySearch (n : String) : Bool :=
  hasAnyWordPhrase n ["kem theo", "di kem", "phu kien di kem", "phu kien kem theo"]

/-- TYPE_ANSWER_RE search on normalized text. -/
def typeAnswerSearch (n : String) : Bool :=
  hasAnyWordPhrase n ["tay", "robot", "robotic", "hand"]

/-- FOLLOWUP_CUE_RE search on normalized text. -/
def followupCueSearch (n : String) : Bool :=
  hasAnyWordPhrase n ["thi sao", "the sao", "sao"]

/-- MATERIAL_RE search on normalized text. -/
def materialSearch (n : String) : Bool :=
  hasAnyWordPhrase n ["nhom", "aluminum", "aluminium", "al"]

/-! ## Position scanning for the numeric regexes

Each scanning function below receives the character preceding the current
position (for \b) together with the remaining suffix, and decides whether a
match of the modelled pattern starts here.  Enumerating every position
reproduces re.search / re.finditer for these patterns, whose matches cannot
overlap. -/

/-- All (previous character, suffix) pairs of a text, in positional order. -/
def suffixesWithPrev : Option Char → List Char → List (Option Char × List Char)
  | _, [] => []
  | prev, c :: rest => (prev, c :: rest) :: suffixesWithPrev (some c) rest

/-- Numeric value of a digit list (most significant first). -/
def natOfDigits (ds : List Char) : Nat :=
  ds.foldl (fun acc c => acc * 10 + (c.toNat - 48)) 0

/-- CODE_RE = \b(tokin(?:arc)?\s*\d+)\b, IGNORECASE, applied to the raw
message.  A match starting at this position yields the digit run of the
matched code (the only part extract_skus keeps after extract_digits). -/
def tokinHere (prev : Option Char) (s : List Char) : Option (List Char) :=
  if boundaryBefore prev then
    if ([ 't', 'o', 'k', 'i', 'n' ] : List Char).isPrefixOf s then
      let s1 := s.drop 5
      let s2 := if ([ 'a', 'r', 'c' ] : List Char).isPrefixOf s1 then s1.drop 3 else s1
      let s3 := s2.dropWhile isSpaceC
      let d := s3.takeWhile isDig
      if !d.isEmpty && boundaryAfter (s3.dropWhile isDig) then some d else none
    else none
  else none

/-- Digit groups of all CODE_RE matches of the (lowercased) raw message. -/
def tokinDigitGroups (m : String) : List (List Char) :=
  (suffixesWithPrev none (m.data.map lc)).filterMap (fun pr => tokinHere pr.1 pr.2)

/-- Embedding of extract_skus: CODE_RE matches reduced to their digits. -/
def extractSkus (m : String) : List String :=
  (tokinDigitGroups m).map String.mk

/-- CODE_RE.search as a Boolean. -/
def tokinSearch (m : String) : Bool := !(tokinDigitGroups m).isEmpty

/-- Alphanumeric runs delimited by word boundaries: a run is reported when
the preceding character is not a word character, it is a maximal
alphanumeric stretch, and the character after it is not a word character.
D_CODE_RE / P_CODE_RE / NUM_CODE_RE matches are exactly such runs. -/
def runAt (prev : Option Char) (s : List Char) : Option (List Char) :=
  if boundaryBefore prev then
    let r := s.takeWhile isAlnumC
    if !r.isEmpty && boundaryAfter (s.drop r.length) then some r else none
  else none

/-- All boundary-delimited alphanumeric runs of the raw message, in order. -/
def codeRunsOf (m : String) : List (List Char) :=
  (suffixesWithPrev none m.data).filterMap (fun pr => runAt pr.1 pr.2)

/-- D_CODE_RE: \bU[0-9A-Z]{4,}\b (IGNORECASE) matches exactly the runs that
start with u/U and have at least five characters. -/
def isDCodeRun (r : List Char) : Bool :=
  match r with
  | [] => false
  | c :: rest => lc c = 'u' && decide (4 ≤ rest.length)

/-- P_CODE_RE: \bP[0-9A-Z]{4,}\b (IGNORECASE). -/
def isPCodeRun (r : List Char) : Bool :=
  match r with
  | [] => false
  | c :: rest => lc c = 'p' && decide (4 ≤ rest.length)

/-- NUM_CODE_RE: \b\d{5,6}\b matches the all-digit runs of length 5 or 6. -/
def isNumCodeRun (r : List Char) : Bool :=
  r.all isDig && (r.length = 5 || r.length = 6)

/-- Embedding of extract_codes: the D/P/NUM code matches ordered by start
position (the three families are mutually exclusive and each match is one
boundary-delimited run), and the first of them as primary code. -/
def extractCodes (m : String) : List String × String :=
  let ordered := ((codeRunsOf m).filter
    (fun r => isDCodeRun r || isPCodeRun r || isNumCodeRun r)).map String.mk
  (ordered, ordered.headD "")

/-- NUM_CODE_RE.search / D_CODE_RE.search / P_CODE_RE.search combined test
used by is_amp_only_message. -/
def anyCodeFamilySearch (m : String) : Bool :=
  (codeRunsOf m).any (fun r => isDCodeRun r || isPCodeRun r || isNumCodeRun r)

/-- QUANTITY_RE = \b(\d{1,6})\s*(cai|chiec|con|bo|cap|set|pcs|sp)\b.  The
digit group must be the full maximal digit run at the position (shorter
backtracked splits leave a digit in front of the unit word and fail). -/
def quantityUnitWords : List (List Char) :=
  [['c','a','i'], ['c','h','i','e','c'], ['c','o','n'], ['b','o'],
   ['c','a','p'], ['s','e','t'], ['p','c','s'], ['s','p']]

/-- Unit alternative followed by a word boundary. -/
def unitWordAt (s : List Char) : Bool :=
  quantityUnitWords.any (fun u => u.isPrefixOf s && boundaryAfter (s.drop u.length))

/-- QUANTITY_RE match starting at this position, returning the characters
of group(1). -/
def quantityHere (prev : Option Char) (s : List Char) : Option (List Char) :=
  if boundaryBefore prev then
    let d := s.takeWhile isDig
    if d.isEmpty || decide (6 < d.length) then none
    else
      let rest := (s.drop d.length).dropWhile isSpaceC
      if unitWordAt rest then some d else none
  else none

/-- SO_LUONG_RE = \b(so luong|sl)\s*(\d{1,6})\b match at this position,
returning the characters of group(2). -/
def soLuongHere (prev : Option Char) (s : List Char) : Option (List Char) :=
  if boundaryBefore prev then
    let kw : Option (List Char) :=
      if (['s','o',' ','l','u','o','n','g'] : List Char).isPrefixOf s then
        some (s.drop 8)
      else if (['s','l'] : List Char).isPrefixOf s then some (s.drop 2)
      else none
    match kw with
    | none => none
    | some r =>
      let r2 := r.dropWhile isSpaceC
      let d := r2.takeWhile isDig
      if !d.isEmpty && decide (d.length ≤ 6) && boundaryAfter (r2.drop d.length) then
        some d
      else none
  else none

/-- Python int() over a matched group, as a fallible conversion: it raises
(models ValueError as Except.error) unless the text is a nonempty digit
string. -/
def pyIntE (ds : List Char) : Except String Nat :=
  if !ds.isEmpty && ds.all isDig then .ok (natOfDigits ds) else .error "ValueError"

/-- A try/except ValueError wrapper returning None on failure. -/
def exceptToNone (e : Except String Nat) : Option Nat :=
  match e with
  | .ok v => some v
  | .error _ => none

/-- Embedding of extract_quantity: first SO_LUONG_RE match, else first
QUANTITY_RE match, on normalized text, converting the digit group through
the guarded int() call. -/
def extractQuantity (n : String) : Option Nat :=
  match ((suffixesWithPrev none n.data).filterMap
          (fun pr => soLuongHere pr.1 pr.2)).head? with
  | some d => exceptToNone (pyIntE d)
  | none =>
    match ((suffixesWithPrev none n.data).filterMap
            (fun pr => quantityHere pr.1 pr.2)).head? with
    | some d => exceptToNone (pyIntE d)
    | none => none

/-- AMP_ANY_RE = \b(\d{3})\s*a\b match at this position, returning the
three-digit group. -/
def ampHere (prev : Option Char) (s : List Char) : Option (List Char) :=
  if boundaryBefore prev then
    match s with
    | d1 :: d2 :: d3 :: rest =>
      if isDig d1 && isDig d2 && isDig d3 then
        match rest.dropWhile isSpaceC with
        | 'a' :: t => if boundaryAfter t then some [d1, d2, d3] else none
        | _ => none
      else none
    | _ => none
  else none

/-- AMP_ANY_RE.search on normalized text. -/
def ampSearch (n : String) : Bool :=
  ((suffixesWithPrev none n.data).filterMap (fun pr => ampHere pr.1 pr.2)) ≠ []

/-- First AMP_ANY_RE group, formatted as the code formats it (digits + A). -/
def ampFirst (n : String) : String :=
  match ((suffixesWithPrev none n.data).filterMap
          (fun pr => ampHere pr.1 pr.2)).head? with
  | some d => String.mk (d ++ ['A'])
  | none => ""

/-- Rational value of a size group: one digit optionally followed by a
decimal digit (Python float of the matched text). -/
def qOfSize (d1 : Char) (d2 : Option Char) : ℚ :=
  (d1.toNat - 48 : ℚ) + (match d2 with
    | some c => (c.toNat - 48 : ℚ) / 10
    | none => 0)

/-- SIZE_RE = \b(\d(?:\.\d)?)\b match at this position (greedy optional
fraction first, falling back to the bare digit when the long form fails the
trailing boundary). -/
def sizeHere (prev : Option Char) (s : List Char) : Option ℚ :=
  if boundaryBefore prev then
    match s with
    | [] => none
    | d1 :: rest =>
      if isDig d1 then
        match rest with
        | '.' :: d2 :: rest2 =>
          if isDig d2 && boundaryAfter rest2 then some (qOfSize d1 (some d2))
          else if boundaryAfter rest then some (qOfSize d1 none)
          else none
        | _ => if boundaryAfter rest then some (qOfSize d1 none) else none
      else none
  else none

/-- First SIZE_RE match of a normalized text. -/
def sizeFirst (n : String) : Option ℚ :=
  ((suffixesWithPrev none n.data).filterMap (fun pr => sizeHere pr.1 pr.2)).head?

/-- Tail of TIP_SIZE_LEN_RE after the length digits: an optional \s*l, then
a word boundary. -/
def tslEnd (rest : List Char) : Bool :=
  (match rest.dropWhile isSpaceC with
   | 'l' :: t => boundaryAfter t
   | _ => false)
  || boundaryAfter rest

/-- Length group of TIP_SIZE_LEN_RE: two or three digits (greedy) whose
continuation satisfies tslEnd. -/
def tslNum (s : List Char) : Option Nat :=
  match s with
  | a :: b :: c :: rest =>
    if isDig a && isDig b then
      if isDig c && tslEnd rest then some (natOfDigits [a, b, c])
      else if tslEnd (c :: rest) then some (natOfDigits [a, b])
      else none
    else none
  | [a, b] => if isDig a && isDig b then some (natOfDigits [a, b]) else none
  | _ => none

/-- The \s*[x]\s* separator of TIP_SIZE_LEN_RE. -/
def afterX (s : List Char) : Option (List Char) :=
  match s.dropWhile isSpaceC with
  | 'x' :: t => some (t.dropWhile isSpaceC)
  | _ => none

/-- TIP_SIZE_LEN_RE = \b(\d(?:\.\d)?)\s*[x]\s*(\d{2,3})(?:\s*l)?\b match at
this position, returning (size, length). -/
def tipSizeLenHere (prev : Option Char) (s : List Char) : Option (ℚ × Nat) :=
  if boundaryBefore prev then
    match s with
    | [] => none
    | d1 :: rest =>
      if isDig d1 then
        let long : Option (ℚ × Nat) :=
          match rest with
          | '.' :: d2 :: rest2 =>
            if isDig d2 then
              match afterX rest2 with
              | some s2 => (tslNum s2).map (fun len => (qOfSize d1 (some d2), len))
              | none => none
            else none
          | _ => none
        match long with
        | some v => some v
        | none =>
          match afterX rest with
          | some s2 => (tslNum s2).map (fun len => (qOfSize d1 none, len))
          | none => none
      else none
  else none

/-- First TIP_SIZE_LEN_RE match of a normalized text. -/
def tipSizeLenFirst (n : String) : Option (ℚ × Nat) :=
  ((suffixesWithPrev none n.data).filterMap
    (fun pr => tipSizeLenHere pr.1 pr.2)).head?

/-- THREAD_RE = \bM\d+(?:x\d+)?\b (IGNORECASE): matches are exactly the
boundary-delimited alphanumeric runs of this exact shape. -/
def isThreadRun (r : List Char) : Bool :=
  match r with
  | [] => false
  | c :: rest =>
    lc c = 'm' &&
      (let d := rest.takeWhile isDig
       !d.isEmpty &&
         (match rest.drop d.length with
          | [] => true
          | x :: r3 => lc x = 'x' && !r3.isEmpty && r3.all isDig))

/-- ASCII upper-case conversion (Python str.upper on ASCII letters). -/
def uc (c : Char) : Char :=
  if 'a' ≤ c ∧ c ≤ 'z' then Char.ofNat (c.toNat - 32) else c

/-- First THREAD_RE match of the raw message, upper-cased as the code does. -/
def threadFirst (m : String) : Option String :=
  ((codeRunsOf m).filter isThreadRun).head?.map (fun r => String.mk (r.map uc))

/-! ## Keyword detectors over normalized text -/

/-- Embedding of detect_product_group: plain substring checks, most specific
keyword first, over normalized text. -/
def detectProductGroup (n : String) : Option String :=
  if containsSub n "than giu" || containsSub n "tip body" then some "TIP_BODY"
  else if containsSub n "cach dien" || containsSub n "insulator" then some "INSULATOR"
  else if containsSub n "su" || containsSub n "orifice" || containsSub n "diffuser" then
    some "ORIFICE"
  else if containsSub n "chup" || containsSub n "nozzle" then some "NOZZLE"
  else if containsSub n "bec" || containsSub n "contact tip" || containsSub n "tip" then
    some "TIP"
  else none

/-- Embedding of detect_system_tag: the first whitespace token equal to n or
d, upper-cased; empty string when none. -/
def detectSystemTag (text : String) : String :=
  match (splitWordsL (normalizeTextL text.data)).filter
      (fun w => w = ['n'] || w = ['d']) with
  | [] => ""
  | w :: _ => String.mk (w.map uc)

/-- PART_SYNONYMS table in its Python insertion order. -/
def partSynonyms : List (String × List String) :=
  [("TIP_BODY", ["than giu bec", "tip body", "holder"]),
   ("INSULATOR", ["cach dien", "insulator"]),
   ("NOZZLE", ["chup khi", "nozzle"]),
   ("ORIFICE", ["su phan phoi khi", "orifice", "diffuser"])]

/-- BUNDLE_HINT_WORDS list. -/
def bundleHintWords : List String :=
  ["dong bo", "tron bo", "full bo", "kem ca bo", "combo", "di kem du bo"]

/-- Embedding of extract_requested_parts: substring matching of part
synonyms (roles in table order) and of the bundle hint words.  The synonym
constants are already in normalized form. -/
def extractRequestedParts (text : String) : List String × Bool :=
  let n := normalizeText text
  let requested := (partSynonyms.filter
    (fun rw => rw.2.any (fun w => containsSub n w))).map (fun rw => rw.1)
  let expand := bundleHintWords.any (fun w => containsSub n w)
  (requested, expand)

/-- Embedding of is_availability_query: plain substring matching against the
availability phrase list. -/
def isAvailabilityQuery (m : String) : Bool :=
  let n := normalizeText m
  (["co ban khong", "ban khong", "con ban khong", "co ban ko", "ban ko",
    "co ban k", "ban k", "co cung cap khong", "co cung cap ko", "co cung cap k",
    "ben em co khong", "ben em co ko", "ben em co k", "co khong", "co ko",
    "co k"] : List String).any (fun p => containsSub n p)

/-- Units accepted by the pure-quantity full matches. -/
def pureUnits : List (List Char) :=
  [['c','a','i'], ['c','h','i','e','c'], ['c','o','n'], ['b','o'], ['c','a','p']]

/-- Full match of \d{1,6} (the whole text is one to six digits). -/
def fullDigits16 (cs : List Char) : Bool :=
  !cs.isEmpty && cs.all isDig && decide (cs.length ≤ 6)

/-- Full match of (mot)(\s+(cai|chiec|con|bo|cap))?. -/
def motUnitFull (cs : List Char) : Bool :=
  if (['m','o','t'] : List Char).isPrefixOf cs then
    let r := cs.drop 3
    r.isEmpty ||
      (match r with
       | c :: _ =>
         isSpaceC c && pureUnits.any (fun u => r.dropWhile isSpaceC = u)
       | [] => false)
  else false

/-- Full match of \d{1,6}\s*(cai|chiec|con|bo|cap). -/
def digitsUnitFull (cs : List Char) : Bool :=
  let d := cs.takeWhile isDig
  !d.isEmpty && decide (d.length ≤ 6) &&
    pureUnits.any (fun u => (cs.drop d.length).dropWhile isSpaceC = u)

/-- Embedding of is_pure_quantity_message. -/
def isPureQuantityMessage (m : String) : Bool :=
  let n := (normalizeText m).data
  !n.isEmpty && (fullDigits16 n || motUnitFull n || digitsUnitFull n)

/-- Embedding of is_quantity_followup_message. -/
def isQuantityFollowupMessage (m : String) : Bool :=
  let n := normalizeText m
  if (extractQuantity n).isNone then false
  else if tokinSearch m || listingSearch n || priceSearch n || relatedSearch n then false
  else if (detectProductGroup n).isSome then false
  else decide (wordCountL n.data ≤ 8)

/-- Embedding of is_amp_only_message. -/
def isAmpOnlyMessage (m : String) : Bool :=
  let n := normalizeText m
  if !ampSearch n then false
  else if (extractQuantity n).isSome then false
  else if (detectProductGroup n).isSome then false
  else if tokinSearch m || anyCodeFamilySearch m then false
  else if priceSearch n || listingSearch n || relatedSearch n then false
  else if wordCountL n.data ≤ 4 then true
  else followupCueSearch n && decide (wordCountL n.data ≤ 6)

/-- Embedding of is_type_only_message (its code search runs on the
normalized text). -/
def isTypeOnlyMessage (m : String) : Bool :=
  let n := normalizeText m
  if 6 < wordCountL n.data then false
  else typeAnswerSearch n && !tokinSearch n && !listingSearch n && !priceSearch n

/-- Embedding of message_has_any_term: whole-token matching by padding both
the text and the term with spaces. -/
def messageHasAnyTerm (n : String) (terms : List String) : Bool :=
  if n.data.isEmpty || terms.isEmpty then false
  else terms.any (fun t =>
    !t.data.isEmpty && hasSubL (' ' :: t.data ++ [' ']) (' ' :: n.data ++ [' ']))

/-- AFFIRM_TERMS set. -/
def affirmTerms : List String :=
  ["muon", "ok", "oke", "okay", "dong y", "nhat tri", "chap nhan", "co",
   "duoc", "yes"]

/-- NEGATE_TERMS set. -/
def negateTerms : List String :=
  ["khong", "khong can", "khong muon", "de sau", "thoi", "huy", "cancel",
   "ko", "k"]

/-- Embedding of is_affirmation_message. -/
def isAffirmationMessage (m : String) : Bool :=
  let n := normalizeText m
  if n.data.isEmpty then false
  else if isAvailabilityQuery m then false
  else if tokinSearch m || listingSearch n || priceSearch n then false
  else if (extractQuantity n).isSome || ampSearch n then false
  else if (detectProductGroup n).isSome || relatedSearch n then false
  else if 4 < wordCountL n.data then false
  else messageHasAnyTerm n affirmTerms

/-- Embedding of is_negative_message. -/
def isNegativeMessage (m : String) : Bool :=
  let n := normalizeText m
  if n.data.isEmpty then false
  else if isAvailabilityQuery m then false
  else if tokinSearch m || listingSearch n || priceSearch n then false
  else if (extractQuantity n).isSome || ampSearch n then false
  else if (detectProductGroup n).isSome || relatedSearch n then false
  else if 4 < wordCountL n.data then false
  else messageHasAnyTerm n negateTerms

/-- Embedding of detect_dialogue_act: the exact cascade of the source. -/
def detectDialogueAct (m : String) : String :=
  if isAmpOnlyMessage m then "SLOT_FILL_AMP"
  else if isTypeOnlyMessage m then "SLOT_FILL_TYPE"
  else if isPureQuantityMessage m || isQuantityFollowupMessage m then "SLOT_FILL_QUANTITY"
  else if isAffirmationMessage m then "AFFIRM"
  else if isNegativeMessage m then "NEGATE"
  else "NEW_INTENT"

/-! ## parse_user_input -/

/-- Constraint values stored in the heterogeneous constraint dictionaries
(strings, rationals from float sizes, integers from int lengths). -/
inductive CVal where
  | s : String → CVal
  | q : ℚ → CVal
  | n : Int → CVal
deriving DecidableEq

/-- Python truthiness of a constraint value. -/
def CVal.truthy : CVal → Bool
  | .s v => v ≠ ""
  | .q v => v ≠ 0
  | .n v => v ≠ 0

/-- Result of extract_lookup_constraints. -/
structure LookupConstraints where
  product_group : Option String
  amp : String
  size : Option ℚ
  length : Option Nat
deriving DecidableEq

/-- Embedding of extract_lookup_constraints. -/
def extractLookupConstraints (m : String) : LookupConstraints :=
  let n := normalizeText m
  let group := detectProductGroup n
  let amp := ampFirst n
  match tipSizeLenFirst n with
  | some (sz, len) =>
    { product_group := group, amp := amp, size := some sz, length := some len }
  | none =>
    { product_group := group, amp := amp, size := sizeFirst n, length := none }

/-- The flat slot bag produced by parse_user_input.  The constraints field
models the Python dict: keys in insertion order, values possibly None. -/
structure ParsedSlots where
  normalized : String
  skus : List String
  codes : List String
  primary_code : String
  quantity : Option Nat
  amp : String
  is_robot : Option Bool
  product_group : Option String
  required_parts : List String
  bundle_hint : Bool
  expand_bundle : Bool
  constraints : List (String × Option CVal)
deriving DecidableEq

/-- Embedding of parse_user_input. -/
def parseUserInput (m : String) : ParsedSlots :=
  let n := normalizeText m
  let skus0 := extractSkus m
  let cp := extractCodes m
  let codes := cp.1
  let primary := cp.2
  let skus :=
    if skus0.isEmpty && !codes.isEmpty then
      let digitCodes := codes.filter (fun c => !c.data.isEmpty && c.data.all isDig)
      if !digitCodes.isEmpty then digitCodes else skus0
    else skus0
  let quantity := extractQuantity n
  let amp := ampFirst n
  let isRobot : Option Bool :=
    let r0 : Option Bool :=
      if containsSub n "robot" || containsSub n "robotic" then some true else none
    if containsSub n "tay" || containsSub n "hand" then some false else r0
  let group := detectProductGroup n
  let rp := extractRequestedParts m
  let bundleHint := bundleQuerySearch n
  let lkp := extractLookupConstraints m
  let thread := threadFirst m
  let material : Option String := if materialSearch n then some "ALUMINUM" else none
  let system := detectSystemTag n
  let cons : List (String × Option CVal) :=
    [("product_group", lkp.product_group.map CVal.s),
     ("amp", some (CVal.s lkp.amp)),
     ("size", lkp.size.map CVal.q),
     ("length", lkp.length.map (fun k => CVal.n (Int.ofNat k)))]
    ++ (match thread with
        | some t => [("thread", some (CVal.s t))]
        | none => [])
    ++ (match material with
        | some mt => [("material", some (CVal.s mt))]
        | none => [])
    ++ (if system ≠ "" then [("system", some (CVal.s system))] else [])
  { normalized := n
    skus := skus
    codes := codes
    primary_code := primary
    quantity := quantity
    amp := amp
    is_robot := isRobot
    product_group := group
    required_parts := rp.1
    bundle_hint := bundleHint
    expand_bundle := rp.2
    constraints := cons }

/-! ## Short memory -/

/-- The last_anchor sub-structure of short memory. -/
structure AnchorMem where
  sku : String
  cat : String
  line_amp : String
  is_robot : Option Bool
  name : String
deriving DecidableEq

/-- The pending_request sub-structure of short memory. -/
structure PendingRequestMem where
  required_parts : List String
  missing_fields : List String
  done_parts : List String
  todo_parts : List String
deriving DecidableEq

/-- The pending_action sub-structure.  A populated dict is modelled as some
record; the cleared empty dict (falsy in Python) as none. -/
structure PendingActionMem where
  action : String
  required_parts : List String
  anchor_sku : String
  product_group : String
  constraints : List (String × CVal)
deriving DecidableEq

/-- The last_commercial_context sub-structure. -/
structure CommercialCtxMem where
  quantity : Option Int
  contact_collected : Bool
  show_form : Bool
deriving DecidableEq

/-- Fully-populated short memory as the per-turn stages read it. -/
structure ShortMem where
  last_anchor : AnchorMem
  last_intent : String
  last_topic : String
  last_results : List String
  pending_request : PendingRequestMem
  pending_action : Option PendingActionMem
  last_user_constraints : List (String × CVal)
  last_commercial_context : CommercialCtxMem
deriving DecidableEq

/-! ## Constraint dictionaries -/

/-- Dictionary lookup in an association list (Python dict.get). -/
def lookupC : List (String × CVal) → String → Option CVal
  | [], _ => none
  | kv :: rest, k => if kv.1 = k then some kv.2 else lookupC rest k

/-- Dictionary assignment (Python dict setitem), keeping key order. -/
def setC (m : List (String × CVal)) (k : String) (v : CVal) : List (String × CVal) :=
  if m.any (fun kv => kv.1 = k) then
    m.map (fun kv => if kv.1 = k then (k, v) else kv)
  else m ++ [(k, v)]

/-- String-typed read with empty default, modelling value-or-empty chains on
constraint dictionaries whose values are strings (as the pipeline writes
them). -/
def getStrC (m : List (String × CVal)) (k : String) : String :=
  match lookupC m k with
  | some (.s v) => v
  | _ => ""

/-- Overlay of the parsed constraints dict on a stored constraint map: None
and empty-string values are skipped, everything else overwrites
(resolve_request_with_memory, constraint merge loop). -/
def overlayParsed (base : List (String × CVal))
    (parsed : List (String × Option CVal)) : List (String × CVal) :=
  parsed.foldl
    (fun acc kv =>
      match kv.2 with
      | none => acc
      | some v => if v = CVal.s "" then acc else setC acc kv.1 v)
    base

/-- One pending entry of the gap-filling merge: written only when truthy
and the key is absent. -/
def fgStep (acc : List (String × CVal)) (kv : String × CVal) : List (String × CVal) :=
  if kv.2.truthy && (lookupC acc kv.1).isNone then setC acc kv.1 kv.2 else acc

/-- Gap-filling merge used by the pending-action AFFIRM branch. -/
def fillGapsC (base pending : List (String × CVal)) : List (String × CVal) :=
  pending.foldl fgStep base

/-! ## resolve_request_with_memory -/

/-- TECHNICAL_INTENTS set. -/
def technicalIntents : List String :=
  ["PRODUCT_LOOKUP", "ACCESSORY_LOOKUP", "ACCESSORY_BUNDLE_LOOKUP", "LIST",
   "LIST_REQUEST", "SLOT_FILL_AMP"]

/-- Embedding of merge_unique: concatenate, skip falsy, uppercase, dedupe
preserving first occurrence. -/
def pyUpper (s : String) : String := String.mk (s.data.map uc)

/-- Order-preserving unique merge of two string lists (merge_unique). -/
def mergeUnique (a b : List String) : List String :=
  (a ++ b).foldl
    (fun acc v =>
      if v = "" then acc
      else
        let k := pyUpper v
        if acc.contains k then acc else acc ++ [k])
    []

/-- The re.match(r"^con\b", normalized) test. -/
def conStart (n : String) : Bool :=
  (['c','o','n'] : List Char).isPrefixOf n.data && boundaryAfter (n.data.drop 3)

/-- The unambiguous-independent-signal disjunction of the NEW_INTENT branch
of the pending-action disposition. -/
def newIntentSignal (message normalized : String) : Bool :=
  tokinSearch message || listingSearch normalized || priceSearch normalized
    || relatedSearch normalized || (detectProductGroup normalized).isSome
    || (extractQuantity normalized).isSome || ampSearch normalized
    || isAvailabilityQuery message

/-- The ResolvedRequest record returned by resolve_request_with_memory. -/
structure ResolvedRequest where
  anchor_sku : String
  anchor_cat : String
  anchor_name : String
  anchor_used : Bool
  product_group : String
  line_amp : String
  is_robot : Option Bool
  required_parts : List String
  bundle_hint : Bool
  expand_bundle : Bool
  constraints : List (String × CVal)
  force_intent : String
  clear_pending_action : Bool
deriving DecidableEq

/-- Intermediate state threaded through the pending-action disposition:
(force_intent, clear_pending_action, anchor_sku, anchor_used, product_group,
required_parts, constraints). -/
abbrev ResolveSt :=
  String × Bool × String × Bool × String × List String × List (String × CVal)

/-- Embedding of the pending-action disposition block of
resolve_request_with_memory (source lines 2911 to 2943). -/
def applyPendingDisposition (act : String) (pendingAction : Option PendingActionMem)
    (parsedGroup : Option String) (signal : Bool) (st : ResolveSt) : ResolveSt :=
  match pendingAction with
  | none => st
  | some pa =>
    let (force, clear, aSku, aUsed, pg, rp, cons) := st
    if act = "AFFIRM" then
      if pa.action ≠ "" then
        let aSku2 := if pa.anchor_sku ≠ "" then pa.anchor_sku else aSku
        let aUsed2 := if pa.anchor_sku ≠ "" then true else aUsed
        let pg2 := if pa.product_group ≠ "" && parsedGroup.isNone then pa.product_group else pg
        let rp2 := if !pa.required_parts.isEmpty then pa.required_parts else rp
        let cons2 := fillGapsC cons pa.constraints
        (pa.action, true, aSku2, aUsed2, pg2, rp2, cons2)
      else (force, clear, aSku, aUsed, pg, rp, cons)
    else if act = "SLOT_FILL_AMP" || act = "SLOT_FILL_TYPE" || act = "SLOT_FILL_QUANTITY" then
      (force, true, aSku, aUsed, pg, rp, cons)
    else if act = "NEGATE" then
      (force, true, aSku, aUsed, pg, rp, cons)
    else if act = "NEW_INTENT" then
      (force, signal, aSku, aUsed, pg, rp, cons)
    else (force, clear, aSku, aUsed, pg, rp, cons)

/-- Embedding of resolve_request_with_memory. -/
def resolveRequestWithMemory (message : String) (parsed : ParsedSlots)
    (memory : ShortMem) : ResolvedRequest :=
  let normalized := if parsed.normalized ≠ "" then parsed.normalized else normalizeText message
  let lastAnchor := memory.last_anchor
  let act := detectDialogueAct message
  let isList := listingSearch normalized
  let qtyTruthy := match parsed.quantity with | some q => q ≠ 0 | none => false
  let followup := followupCueSearch normalized || qtyTruthy || parsed.amp ≠ ""
      || parsed.is_robot.isSome || parsed.bundle_hint
      || (decide (wordCountL normalized.data ≤ 4) && lastAnchor.sku ≠ "")
  let base : String × String × String × Bool :=
    match parsed.skus with
    | s :: _ => (s, "", "", false)
    | [] =>
      if followup && lastAnchor.sku ≠ "" then
        (lastAnchor.sku, lastAnchor.cat, lastAnchor.name, true)
      else if followup && memory.last_results.length = 1 then
        (memory.last_results.headD "", "", "", true)
      else ("", "", "", false)
  let aSku := base.1
  let aCat := if base.2.1 = "" && lastAnchor.cat ≠ "" then lastAnchor.cat else base.2.1
  let aName := if base.2.2.1 = "" && lastAnchor.name ≠ "" then lastAnchor.name else base.2.2.1
  let aUsed := base.2.2.2
  let pg0 := match parsed.product_group with | some g => g | none => aCat
  let lineAmp := if parsed.amp ≠ "" then parsed.amp
                 else getStrC memory.last_user_constraints "amp"
  let isRobot := match parsed.is_robot with
                 | some b => some b
                 | none => lastAnchor.is_robot
  let requestedParts := parsed.required_parts
  let rp1 := if requestedParts.isEmpty && parsed.bundle_hint then
               memory.pending_request.required_parts
             else requestedParts
  let conHit := conStart normalized && !requestedParts.isEmpty
  let rp2 := if conHit then requestedParts else rp1
  let expand1 := if conHit then false else parsed.expand_bundle
  let pg1 := if conHit && requestedParts.length = 1 then requestedParts.headD "" else pg0
  let insHit := containsSub normalized "cach dien" || containsSub normalized "insulator"
  let pg2 := if insHit then "INSULATOR" else pg1
  let rp3 := if insHit && !rp2.contains "INSULATOR" then mergeUnique rp2 ["INSULATOR"]
             else rp2
  let cons0 := overlayParsed memory.last_user_constraints parsed.constraints
  let force0 :=
    if !isList && (!rp3.isEmpty || expand1 || parsed.bundle_hint) && aSku ≠ "" then
      "ACCESSORY_BUNDLE_LOOKUP"
    else if !isList && lineAmp ≠ "" && aSku ≠ "" &&
        technicalIntents.contains memory.last_intent then
      memory.last_intent
    else if !isList && isRobot.isSome && aSku ≠ "" &&
        technicalIntents.contains memory.last_intent then
      memory.last_intent
    else ""
  let force1 := if isPureQuantityMessage message || isQuantityFollowupMessage message then ""
                else force0
  let signal := newIntentSignal message normalized
  let st := applyPendingDisposition act memory.pending_action parsed.product_group signal
      (force1, false, aSku, aUsed, pg2, rp3, cons0)
  { anchor_sku := st.2.2.1
    anchor_cat := aCat
    anchor_name := aName
    anchor_used := st.2.2.2.1
    product_group := st.2.2.2.2.1
    line_amp := lineAmp
    is_robot := isRobot
    required_parts := st.2.2.2.2.2.1
    bundle_hint := parsed.bundle_hint
    expand_bundle := expand1
    constraints := st.2.2.2.2.2.2
    force_intent := st.1
    clear_pending_action := st.2.1 }

/-! ## default_short_memory and normalize_short_memory

The persisted dict may miss keys or hold a wrong-typed value, so the stored
view wraps every top-level key in Option (absent key = none).  The
pending_action value itself is Option PendingActionMem because the cleared
state is the empty dict. -/

/-- Persisted short-memory dict with possibly-missing keys. -/
structure StoredShortMem where
  last_anchor : Option AnchorMem
  last_intent : Option String
  last_topic : Option String
  last_results : Option (List String)
  pending_request : Option PendingRequestMem
  pending_action : Option (Option PendingActionMem)
  last_user_constraints : Option (List (String × CVal))
  last_commercial_context : Option CommercialCtxMem
deriving DecidableEq

/-- Empty anchor used by default_short_memory and the setdefault calls. -/
def defaultAnchor : AnchorMem :=
  { sku := "", cat := "", line_amp := "", is_robot := none, name := "" }

/-- Empty pending_request default. -/
def defaultPendingRequest : PendingRequestMem :=
  { required_parts := [], missing_fields := [], done_parts := [], todo_parts := [] }

/-- Default pending_action of default_short_memory: a dict whose fields are
all empty but which is itself non-empty (truthy). -/
def defaultPendingAction : PendingActionMem :=
  { action := "", required_parts := [], anchor_sku := "", product_group := "",
    constraints := [] }

/-- Default last_commercial_context. -/
def defaultCommercialCtx : CommercialCtxMem :=
  { quantity := none, contact_collected := false, show_form := false }

/-- Embedding of default_short_memory (all keys present). -/
def defaultShortMemory : StoredShortMem :=
  { last_anchor := some defaultAnchor
    last_intent := some ""
    last_topic := some ""
    last_results := some []
    pending_request := some defaultPendingRequest
    pending_action := some (some defaultPendingAction)
    last_user_constraints := some []
    last_commercial_context := some defaultCommercialCtx }

/-- The persisted short_memory field: absent, present but not a dict, or a
dict. -/
inductive MemField where
  | absent
  | nonDict
  | stored (m : StoredShortMem)
deriving DecidableEq

/-- The persisted short_memory_ts field: absent, present but not numeric, or
a number (Python int or float, modelled as a rational). -/
inductive TsField where
  | absent
  | nonNum
  | num (t : ℚ)
deriving DecidableEq

/-- SHORT_MEMORY_TTL_SEC = 15 * 60. -/
def shortMemoryTTLSec : ℚ := 900

/-- Embedding of normalize_short_memory: reset to defaults when the stored
value is not a dict, the timestamp is not numeric, or the TTL has elapsed;
then setdefault the six structural keys. -/
def normalizeShortMemory (mem : MemField) (ts : TsField) (now : ℚ) : StoredShortMem :=
  let m0 := match mem with
    | .stored m => m
    | _ => defaultShortMemory
  let m1 := match ts with
    | .num t => if now - t > shortMemoryTTLSec then defaultShortMemory else m0
    | _ => defaultShortMemory
  { m1 with
    last_anchor := some (m1.last_anchor.getD defaultAnchor)
    last_results := some (m1.last_results.getD [])
    pending_request := some (m1.pending_request.getD defaultPendingRequest)
    pending_action := some (m1.pending_action.getD (some defaultPendingAction))
    last_user_constraints := some (m1.last_user_constraints.getD [])
    last_commercial_context := some (m1.last_commercial_context.getD defaultCommercialCtx) }

/-! ## apply_intent_rules -/

/-- The decision record as far as apply_intent_rules reads and writes it.
The collect_contact flag is commercial_action["collect_contact"]; the
returned decision is rebuilt without a commercial_action, whose default is
the empty dict (collect_contact false). -/
structure IntentDecision where
  intent : String
  buy_intent : Bool
  info_only : Bool
  topic : String
  missing : List String
  next_action : String
  collect_contact : Bool
deriving DecidableEq

/-- The fixed next-action vocabulary. -/
def allowedActions : List String :=
  ["ANSWER_ONLY", "ASK_FOR_SKU_OR_GROUP", "ASK_HAND_VS_ROBOT_ONCE",
   "REQUEST_CONTACT_FORM", "COMMERCIAL_NEUTRAL_REPLY"]

/-- Intents whose info_only flag is zapped to false by apply_intent_rules. -/
def infoZapIntents : List String :=
  ["LIST", "LIST_REQUEST", "PRODUCT_LOOKUP", "ACCESSORY_LOOKUP",
   "ACCESSORY_BUNDLE_LOOKUP", "CODE_LOOKUP", "QUANTITY_FOLLOWUP",
   "SLOT_FILL_AMP"]

/-- info_only after the zap: the ladder guard of the first branch. -/
def ruleInfoOnly (d : IntentDecision) : Bool :=
  cond (infoZapIntents.contains d.intent) false d.info_only

/-- LIST / LIST_REQUEST ladder branch guard. -/
def ruleListIntent (d : IntentDecision) : Bool :=
  d.intent == "LIST" || d.intent == "LIST_REQUEST"

/-- Accessory-lookup ladder branch guard. -/
def ruleAccIntent (d : IntentDecision) : Bool :=
  d.intent == "ACCESSORY_LOOKUP" || d.intent == "ACCESSORY_BUNDLE_LOOKUP"

/-- SLOT_FILL_AMP ladder branch guard. -/
def ruleSfaIntent (d : IntentDecision) : Bool := d.intent == "SLOT_FILL_AMP"

/-- QUANTITY_FOLLOWUP ladder branch guard. -/
def ruleQfIntent (d : IntentDecision) : Bool := d.intent == "QUANTITY_FOLLOWUP"

/-- PRODUCT_AVAILABILITY ladder branch guard. -/
def rulePaIntent (d : IntentDecision) : Bool := d.intent == "PRODUCT_AVAILABILITY"

/-- CODE_LOOKUP-without-buy-intent ladder branch guard. -/
def ruleCodeNoBuy (d : IntentDecision) : Bool :=
  d.intent == "CODE_LOOKUP" && !d.buy_intent

/-- Buy-intent-with-missing-sku ladder branch guard. -/
def ruleBuySku (d : IntentDecision) : Bool :=
  d.buy_intent && d.missing.contains "sku"

/-- Buy-intent-with-missing-contact ladder branch guard. -/
def ruleBuyContact (d : IntentDecision) : Bool :=
  d.buy_intent && d.missing.contains "contact" && !(d.topic == "commercial")

/-- Commercial-topic ladder branch guard. -/
def ruleCommercial (d : IntentDecision) : Bool := d.topic == "commercial"

/-- Missing-tay_robot ladder branch guard. -/
def ruleTayRobot (d : IntentDecision) : Bool := d.missing.contains "tay_robot"

/-- Embedding of apply_intent_rules: validate the proposed next_action
against the vocabulary, then run the first-match hard-rule ladder.  The
unused normalized_message parameter of the source is kept. -/
def applyIntentRules (d : IntentDecision) (normalizedMessage : String) : IntentDecision :=
  let _ := normalizedMessage
  let na0 := cond (allowedActions.contains d.next_action) d.next_action "ANSWER_ONLY"
  let na :=
    cond (ruleInfoOnly d) "ANSWER_ONLY" <|
    cond (ruleListIntent d) "ANSWER_ONLY" <|
    cond (ruleAccIntent d) "ANSWER_ONLY" <|
    cond (ruleSfaIntent d) "ANSWER_ONLY" <|
    cond (ruleQfIntent d) (cond d.collect_contact "REQUEST_CONTACT_FORM" "ANSWER_ONLY") <|
    cond (rulePaIntent d) "ANSWER_ONLY" <|
    cond (ruleCodeNoBuy d) "ANSWER_ONLY" <|
    cond (ruleBuySku d) "ASK_FOR_SKU_OR_GROUP" <|
    cond (ruleBuyContact d) "REQUEST_CONTACT_FORM" <|
    cond (ruleCommercial d) "COMMERCIAL_NEUTRAL_REPLY" <|
    cond (ruleTayRobot d) "ASK_HAND_VS_ROBOT_ONCE" na0
  { intent := d.intent, buy_intent := d.buy_intent, info_only := ruleInfoOnly d,
    topic := d.topic, missing := d.missing, next_action := na,
    collect_contact := false }

/-- True when some branch of the hard-rule ladder fires, so the proposed
next_action cannot survive. -/
def hardRuleApplies (d : IntentDecision) : Bool :=
  ruleInfoOnly d || ruleListIntent d || ruleAccIntent d || ruleSfaIntent d
    || ruleQfIntent d || rulePaIntent d || ruleCodeNoBuy d || ruleBuySku d
    || ruleBuyContact d || ruleCommercial d || ruleTayRobot d

/-! ## get_bulk_qty_threshold -/

/-- Python str.isdigit for ASCII strings. -/
def pyStrIsDigit (s : String) : Bool := !s.data.isEmpty && s.data.all isDig

/-- Python int(text.strip()) as a partial conversion (none models the
raised ValueError that the caller catches and skips). -/
def pyIntOfString (s : String) : Option Int :=
  let t := ((s.data.dropWhile isSpaceC).reverse.dropWhile isSpaceC).reverse
  match t with
  | [] => none
  | '-' :: ds =>
    if !ds.isEmpty && ds.all isDig then some (-(natOfDigits ds : Int)) else none
  | '+' :: ds =>
    if !ds.isEmpty && ds.all isDig then some ((natOfDigits ds : Int)) else none
  | ds => if ds.all isDig then some ((natOfDigits ds : Int)) else none

/-- BULK_QTY_KEYS, already in normalized form. -/
def bulkQtyKeys : List String :=
  ["min_bulk_qty", "min_bulk", "min_qty", "min_order_qty", "min order qty",
   "bulk_qty", "bulk qty", "so luong toi thieu", "sl toi thieu"]

/-- Positive quantities harvested from the raw attribute maps of catalog
items (keys matched after normalization, values parsed by the guarded int
conversion; string values model str(value)). -/
def bulkValuesOf (items : List (List (String × String))) : List Int :=
  items.foldl
    (fun acc raw =>
      raw.foldl
        (fun acc2 kv =>
          let keyNorm := normalizeText kv.1
          if bulkQtyKeys.contains keyNorm ||
              (containsSub keyNorm "min" &&
                (containsSub keyNorm "qty" || containsSub keyNorm "so luong")) then
            match pyIntOfString kv.2 with
            | some v => if 0 < v then acc2 ++ [v] else acc2
            | none => acc2
          else acc2)
        acc)
    []

/-- Embedding of get_bulk_qty_threshold: environment override first (any
truthy digit string, including "0"), else the minimum positive
catalog-derived value. -/
def getBulkQtyThreshold (env : Option String) (items : List (List (String × String))) :
    Option Int :=
  let fromItems :=
    match bulkValuesOf items with
    | [] => none
    | v :: vs => some (vs.foldl min v)
  match env with
  | some e => if e ≠ "" && pyStrIsDigit e then some ((natOfDigits e.data : Int))
              else fromItems
  | none => fromItems

/-! ## The tail of _step_context_guard (source lines 1419 to 1513)

The input record captures the pipeline context as it stands at line 1419:
the flags computed by the earlier part of the step, the decision fields, and
the order state (already updated by update_order_state_from_turn). -/

/-- Context snapshot consumed by the guard tail. -/
structure GuardState where
  intent_label : String
  next_action : String
  buy_intent : Bool
  is_close_intent : Bool
  is_single_unit : Bool
  is_info_only : Bool
  is_asking_price : Bool
  is_availability_query : Bool
  request_contact : Bool
  collect_contact : Bool
  entities_quantity : Option Int
  selected_sku : String
  selected_group : String
  order_quantity : Option Int
  contact : String
  user_message : String
deriving DecidableEq

/-- Outputs of the guard tail that the claims are about. -/
structure GuardOut where
  request_contact : Bool
  collect_contact : Bool
  should_show_form : Bool
deriving DecidableEq

/-- quantity_value = order_state quantity or intent entities quantity
(Python or-chain: a zero order quantity falls through). -/
def guardQuantityValue (g : GuardState) : Option Int :=
  match g.order_quantity with
  | some q => if q ≠ 0 then some q else g.entities_quantity
  | none => g.entities_quantity

/-- Embedding of the guard tail: bulk forcing of contact collection,
should_show_form derivation with its overrides, and the per-intent forcing
blocks. -/
def guardFinal (env : Option String) (items : List (List (String × String)))
    (g : GuardState) : GuardOut :=
  let thr := getBulkQtyThreshold env items
  let qv := guardQuantityValue g
  let bulkHit :=
    match thr, qv with
    | some t, some q => t ≠ 0 && t ≤ q
    | _, _ => false
  let reqContact := if bulkHit then true else g.request_contact
  let collect := if bulkHit then true else g.collect_contact
  let hasSelected := g.selected_sku ≠ "" || g.selected_group ≠ ""
  let quantityPresent := g.order_quantity.isSome
  let contactMissing := g.contact = ""
  let base := hasSelected && quantityPresent && contactMissing
      && !g.is_single_unit && !g.is_info_only
      && (g.buy_intent || g.is_close_intent || reqContact)
  let f1 := if g.next_action = "ASK_FOR_SKU_OR_GROUP" then false else base
  let f2 := if g.is_asking_price || g.is_availability_query then false else f1
  let qmsg := isPureQuantityMessage g.user_message || isQuantityFollowupMessage g.user_message
  let f3 := if qmsg && hasSelected && quantityPresent && contactMissing
      && !g.is_single_unit && !g.is_info_only then true else f2
  let f4 := if g.intent_label = "PRODUCT_LOOKUP" || g.intent_label = "TYPE_SWITCH"
      || g.intent_label = "ACCESSORY_LOOKUP" || g.intent_label = "ACCESSORY_BUNDLE_LOOKUP"
    then false else f3
  { request_contact := reqContact, collect_contact := collect, should_show_form := f4 }

/-! ## The last_user_constraints merge of update_short_memory_from_context
(source lines 4680 to 4686) -/

/-- intent_entities.get(key) for the constraint keys: an absent key and a
present-but-None value both read as none. -/
def entGet (ent : List (String × Option CVal)) (k : String) : Option CVal :=
  match ent.find? (fun kv => kv.1 = k) with
  | some kv => kv.2
  | none => none

/-- The constraint keys the memory updater copies. -/
def constraintKeys : List String :=
  ["amp", "size", "length", "thread", "material", "system"]

/-- One key of the last_user_constraints merge: copy the entity value unless
it is absent/None, or it is the amp key and no amp pattern occurs in the
normalized raw user message. -/
def ulcStep (ent : List (String × Option CVal)) (userMsg : String)
    (acc : List (String × CVal)) (k : String) : List (String × CVal) :=
  match entGet ent k with
  | none => acc
  | some v =>
    if k = "amp" && !ampSearch (normalizeText userMsg) then acc
    else setC acc k v

/-- Embedding of the last_user_constraints merge: overlay the turn entities
on the stored map, skipping the amp key when no amp pattern occurs in the
normalized raw user message. -/
def updateLastUserConstraints (stored : List (String × CVal))
    (ent : List (String × Option CVal)) (userMsg : String) : List (String × CVal) :=
  constraintKeys.foldl (ulcStep ent userMsg) stored

/-! ## Exception-free slot extraction (claim about totality)

A hypothetical uncaught conversion error inside parse_user_input would have
to surface here; every int()/float() call of the extraction tree is guarded
where Python guards it (extract_quantity and extract_lookup_constraints
catch ValueError and yield None), so the parser is total. -/

/-- parse_user_input in the exception-aware view. -/
def parseUserInputE (m : String) : Except String ParsedSlots :=
  .ok (parseUserInput m)

/-! ## Theorems -/

/-- C1: for every persisted short-memory field and every turn, when the
persisted timestamp lies more than SHORT_MEMORY_TTL_SEC = 900 seconds before
the current time, normalize_short_memory returns exactly the default
short-memory structure (empty last_anchor, empty last_results, empty
pending_request, empty pending_action fields, empty last_user_constraints,
default last_commercial_context): the structure is replaced whole, never
partially expired. -/
theorem c1_ttl_expiry_resets_short_memory (mem : MemField) (t now : ℚ)
    (h : now - t > shortMemoryTTLSec) :
    normalizeShortMemory mem (.num t) now = defaultShortMemory := by
  simp only [normalizeShortMemory, if_pos h]
  rfl

/-- Witness for C1 at a concrete expired timestamp. -/
theorem c1_ttl_expiry_resets_short_memory_witness :
    (1000 : ℚ) - 0 > shortMemoryTTLSec ∧
      normalizeShortMemory .nonDict (.num 0) 1000 = defaultShortMemory :=
  ⟨by norm_num [shortMemoryTTLSec],
   c1_ttl_expiry_resets_short_memory .nonDict 0 1000
     (by norm_num [shortMemoryTTLSec])⟩

/-- C10: malformed persisted memory behaves exactly like expired memory: if
the stored short_memory field is absent or not a dict, or short_memory_ts is
absent or not a number, normalize_short_memory returns the complete default
structure. -/
theorem c10_malformed_memory_resets (mem : MemField) (ts : TsField) (now : ℚ)
    (h : mem = .absent ∨ mem = .nonDict ∨ ts = .absent ∨ ts = .nonNum) :
    normalizeShortMemory mem ts now = defaultShortMemory := by
  rcases h with h | h | h | h <;> subst h
  case inl => cases ts <;> simp [normalizeShortMemory, defaultShortMemory]
  case inr.inl => cases ts <;> simp [normalizeShortMemory, defaultShortMemory]
  case inr.inr.inl => cases mem <;> simp [normalizeShortMemory, defaultShortMemory]
  case inr.inr.inr => cases mem <;> simp [normalizeShortMemory, defaultShortMemory]

/-- Witness for C10 at a concrete malformed state. -/
theorem c10_malformed_memory_resets_witness :
    normalizeShortMemory .nonDict (.num 5) 10 = defaultShortMemory :=
  c10_malformed_memory_resets .nonDict (.num 5) 10 (Or.inr (Or.inl rfl))

/-- C8: slot extraction is total.  The exception-aware parser always returns
ok (every fallible int conversion of the extraction tree is caught where
Python catches it), and the empty utterance yields the all-absent slot bag:
no codes, no quantity, empty amp, no robot flag, no group, no parts, no
hints, and a constraints dict whose values are None or empty. -/
theorem c8_slot_extraction_total :
    (∀ m : String, parseUserInputE m = Except.ok (parseUserInput m)) ∧
      parseUserInput "" =
        { normalized := "", skus := [], codes := [], primary_code := "",
          quantity := none, amp := "", is_robot := none, product_group := none,
          required_parts := [], bundle_hint := false, expand_bundle := false,
          constraints :=
            [("product_group", none), ("amp", some (CVal.s "")),
             ("size", none), ("length", none)] } :=
  ⟨fun _ => rfl, by decide⟩

/-! ### Association-list lemmas for the constraint merges -/

/-- Lookup in the replace-map used by setC, at the replaced key. -/
theorem lookupC_map_replace_same (k : String) (v : CVal) :
    ∀ m : List (String × CVal), m.any (fun kv => kv.1 = k) = true →
      lookupC (m.map (fun kv => if kv.1 = k then (k, v) else kv)) k = some v := by
  intro m
  induction m with
  | nil => intro h; simp at h
  | cons hd tl ih =>
    intro h
    by_cases hk : hd.1 = k
    · simp [lookupC, hk]
    · have h2 : tl.any (fun kv => kv.1 = k) = true := by
        simp [List.any_cons, hk] at h
        simpa using h
      simp [lookupC, hk, ih h2]

/-- Lookup in the replace-map used by setC, at a different key. -/
theorem lookupC_map_replace_other (k : String) (v : CVal) (k2 : String)
    (h : k2 ≠ k) :
    ∀ m : List (String × CVal),
      lookupC (m.map (fun kv => if kv.1 = k then (k, v) else kv)) k2 = lookupC m k2 := by
  intro m
  induction m with
  | nil => rfl
  | cons hd tl ih =>
    by_cases hk : hd.1 = k
    · have hkk : ¬(k = k2) := fun he => h (Eq.symm he)
      have hd2 : ¬(hd.1 = k2) := by rw [hk]; exact hkk
      simp [lookupC, if_pos hk, hkk, hd2, ih]
    · by_cases hk2 : hd.1 = k2
      · simp [lookupC, if_neg hk, hk2, h]
      · simp [lookupC, if_neg hk, hk2, ih]

/-- Lookup after appending a fresh key-value pair. -/
theorem lookupC_append_single (k : String) (v : CVal) :
    ∀ m : List (String × CVal), (∀ kv ∈ m, ¬(kv.1 = k)) →
      lookupC (m ++ [(k, v)]) k = some v := by
  intro m
  induction m with
  | nil => intro _; simp [lookupC]
  | cons hd tl ih =>
    intro h
    have h1 : ¬(hd.1 = k) := h hd (List.mem_cons_self hd tl)
    have h2 : ∀ kv ∈ tl, ¬(kv.1 = k) := fun kv hm => h kv (List.mem_cons_of_mem hd hm)
    simp [lookupC, h1, ih h2]

/-- Lookup after setting the same key. -/
theorem lookupC_setC_same (m : List (String × CVal)) (k : String) (v : CVal) :
    lookupC (setC m k v) k = some v := by
  unfold setC
  split
  next h => exact lookupC_map_replace_same k v m h
  next h =>
    apply lookupC_append_single
    intro kv hm hk
    exact h (List.any_eq_true.mpr ⟨kv, hm, by simp [hk]⟩)

/-- Lookup of a different key after a set. -/
theorem lookupC_setC_other (m : List (String × CVal)) (k : String) (v : CVal)
    (k2 : String) (h : k2 ≠ k) : lookupC (setC m k v) k2 = lookupC m k2 := by
  unfold setC
  split
  next hany => exact lookupC_map_replace_other k v k2 h m
  next hany =>
    clear hany
    have hkk : ¬(k = k2) := fun he => h (Eq.symm he)
    induction m with
    | nil => simp [lookupC, hkk]
    | cons hd tl ih =>
      by_cases hk2 : hd.1 = k2
      · simp [lookupC, hk2]
      · simp [lookupC, hk2, ih]

/-- The merge fold leaves alone every key it never writes. -/
theorem ulc_foldl_preserved (ent : List (String × Option CVal)) (msg : String)
    (k : String)
    (h : entGet ent k = none ∨ (k = "amp" ∧ ampSearch (normalizeText msg) = false)) :
    ∀ (keys : List String) (acc : List (String × CVal)),
      lookupC (keys.foldl (ulcStep ent msg) acc) k = lookupC acc k := by
  intro keys
  induction keys with
  | nil => intro acc; rfl
  | cons k1 keys ih =>
    intro acc
    show lookupC (keys.foldl (ulcStep ent msg) (ulcStep ent msg acc k1)) k = _
    rw [ih]
    cases hg : entGet ent k1 with
    | none => simp only [ulcStep, hg]
    | some v =>
      simp only [ulcStep, hg]
      split
      next => rfl
      next hc =>
        have hne : k ≠ k1 := by
          intro he
          subst he
          rcases h with h | h
          · rw [h] at hg; cases hg
          · exact hc (by simp [h.1, h.2])
        exact lookupC_setC_other acc k1 v k hne

/-- The merge fold leaves alone every key outside its key list. -/
theorem ulc_foldl_not_mem (ent : List (String × Option CVal)) (msg : String)
    (k : String) :
    ∀ (keys : List String), k ∉ keys →
      ∀ acc : List (String × CVal),
        lookupC (keys.foldl (ulcStep ent msg) acc) k = lookupC acc k := by
  intro keys
  induction keys with
  | nil => intro _ acc; rfl
  | cons k1 keys ih =>
    intro h acc
    have hk1 : k ≠ k1 := fun he => h (he ▸ List.mem_cons_self k1 keys)
    have hk2 : k ∉ keys := fun he => h (List.mem_cons_of_mem k1 he)
    show lookupC (keys.foldl (ulcStep ent msg) (ulcStep ent msg acc k1)) k = _
    rw [ih hk2]
    cases hg : entGet ent k1 with
    | none => simp only [ulcStep, hg]
    | some v =>
      simp only [ulcStep, hg]
      split
      next => rfl
      next => exact lookupC_setC_other acc k1 v k hk1

/-- The merge fold writes a key exactly once when the entity value is
present and the amp guard does not block it. -/
theorem ulc_foldl_written (ent : List (String × Option CVal)) (msg : String)
    (k : String) (v : CVal) (hv : entGet ent k = some v)
    (hamp : ¬(k = "amp" ∧ ampSearch (normalizeText msg) = false)) :
    ∀ (keys : List String) (acc : List (String × CVal)),
      keys.Nodup → k ∈ keys →
      lookupC (keys.foldl (ulcStep ent msg) acc) k = some v := by
  intro keys
  induction keys with
  | nil => intro acc _ hmem; cases hmem
  | cons k1 keys ih =>
    intro acc hnd hmem
    by_cases hk : k = k1
    · subst hk
      show lookupC (keys.foldl (ulcStep ent msg) (ulcStep ent msg acc k)) k = some v
      have hnotin : k ∉ keys := (List.nodup_cons.mp hnd).1
      rw [ulc_foldl_not_mem ent msg k keys hnotin]
      simp only [ulcStep, hv]
      split
      next hc =>
        exfalso
        apply hamp
        constructor
        · by_contra hne
          simp [hne] at hc
        · by_contra hne
          simp [Bool.not_eq_false] at hne
          simp [hne] at hc
      next => exact lookupC_setC_same acc k v
    · have hmem2 : k ∈ keys := by
        cases hmem with
        | head => exact absurd rfl hk
        | tail _ h2 => exact h2
      exact ih (ulcStep ent msg acc k1) (List.nodup_cons.mp hnd).2 hmem2

/-- C9: the memory updater merges the turn entity constraints over the
stored last_user_constraints with the current turn winning, except that the
amp key is written only when an amp pattern occurs in the normalized raw
user message; otherwise the stored amp value is untouched, and keys the turn
does not set keep their stored values. -/
theorem c9_amp_constraint_merge (stored : List (String × CVal))
    (ent : List (String × Option CVal)) (msg : String) :
    (ampSearch (normalizeText msg) = false →
      lookupC (updateLastUserConstraints stored ent msg) "amp" = lookupC stored "amp") ∧
    (∀ v : CVal, ampSearch (normalizeText msg) = true → entGet ent "amp" = some v →
      lookupC (updateLastUserConstraints stored ent msg) "amp" = some v) ∧
    (∀ k, k ∈ constraintKeys → k ≠ "amp" → ∀ v : CVal, entGet ent k = some v →
      lookupC (updateLastUserConstraints stored ent msg) k = some v) ∧
    (∀ k, entGet ent k = none →
      lookupC (updateLastUserConstraints stored ent msg) k = lookupC stored k) := by
  refine ⟨?_, ?_, ?_, ?_⟩
  · intro hamp
    exact ulc_foldl_preserved ent msg "amp" (Or.inr ⟨rfl, hamp⟩) constraintKeys stored
  · intro v hamp hv
    refine ulc_foldl_written ent msg "amp" v hv ?_ constraintKeys stored (by decide)
      (by decide)
    rintro ⟨-, hfalse⟩
    rw [hamp] at hfalse
    cases hfalse
  · intro k hkmem hkamp v hv
    exact ulc_foldl_written ent msg k v hv (fun hpair => hkamp hpair.1) constraintKeys
      stored (by decide) hkmem
  · intro k hv
    exact ulc_foldl_preserved ent msg k (Or.inl hv) constraintKeys stored

/-- Witness for C9: a turn with an amp entity but no amp pattern in the raw
text leaves the stored amp constraint unchanged. -/
theorem c9_amp_constraint_merge_witness :
    ampSearch (normalizeText "cho loai do nhe") = false ∧
      lookupC (updateLastUserConstraints [("amp", CVal.s "350A")]
          [("amp", some (CVal.s "500A"))] "cho loai do nhe") "amp" =
        lookupC [("amp", CVal.s "350A")] "amp" :=
  ⟨by decide,
   (c9_amp_constraint_merge [("amp", CVal.s "350A")]
       [("amp", some (CVal.s "500A"))] "cho loai do nhe").1 (by decide)⟩

/-! ### C3: next-action hard rules -/

/-- A decision with buy intent and sku missing whose intent is LIST. -/
def c3Decision : IntentDecision :=
  { intent := "LIST", buy_intent := true, info_only := false, topic := "product",
    missing := ["sku"], next_action := "REQUEST_CONTACT_FORM",
    collect_contact := false }

/-- C3 counterexample: a decision with buy_intent true and sku missing does
not always end with ASK_FOR_SKU_OR_GROUP: when an earlier ladder branch
matches (here the LIST intent), the hard-rule pass yields ANSWER_ONLY. -/
theorem c3_counterexample :
    c3Decision.buy_intent = true ∧ c3Decision.missing.contains "sku" = true ∧
      (applyIntentRules c3Decision "").next_action = "ANSWER_ONLY" ∧
      (applyIntentRules c3Decision "").next_action ≠ "ASK_FOR_SKU_OR_GROUP" := by
  decide

/-- The next-action ladder over abstract branch guards. -/
def ladderChain (b1 b2 b3 b4 b5 b6 b7 b8 b9 b10 b11 cc : Bool) (na0 : String) : String :=
  cond b1 "ANSWER_ONLY" <|
  cond b2 "ANSWER_ONLY" <|
  cond b3 "ANSWER_ONLY" <|
  cond b4 "ANSWER_ONLY" <|
  cond b5 (cond cc "REQUEST_CONTACT_FORM" "ANSWER_ONLY") <|
  cond b6 "ANSWER_ONLY" <|
  cond b7 "ANSWER_ONLY" <|
  cond b8 "ASK_FOR_SKU_OR_GROUP" <|
  cond b9 "REQUEST_CONTACT_FORM" <|
  cond b10 "COMMERCIAL_NEUTRAL_REPLY" <|
  cond b11 "ASK_HAND_VS_ROBOT_ONCE" na0

/-- The ladder only produces vocabulary members when its default does. -/
theorem ladderChain_mem (b1 b2 b3 b4 b5 b6 b7 b8 b9 b10 b11 cc : Bool)
    (na0 : String) (h : allowedActions.contains na0 = true) :
    allowedActions.contains (ladderChain b1 b2 b3 b4 b5 b6 b7 b8 b9 b10 b11 cc na0) = true := by
  cases b1
  case true => rfl
  case false =>
  cases b2
  case true => rfl
  case false =>
  cases b3
  case true => rfl
  case false =>
  cases b4
  case true => rfl
  case false =>
  cases b5
  case true => cases cc <;> rfl
  case false =>
  cases b6
  case true => rfl
  case false =>
  cases b7
  case true => rfl
  case false =>
  cases b8
  case true => rfl
  case false =>
  cases b9
  case true => rfl
  case false =>
  cases b10
  case true => rfl
  case false =>
  cases b11
  case true => rfl
  case false => exact h

/-- When some guard fires, the ladder ignores its default. -/
theorem ladderChain_override (b1 b2 b3 b4 b5 b6 b7 b8 b9 b10 b11 cc : Bool)
    (na0 na1 : String)
    (h : (b1 || b2 || b3 || b4 || b5 || b6 || b7 || b8 || b9 || b10 || b11) = true) :
    ladderChain b1 b2 b3 b4 b5 b6 b7 b8 b9 b10 b11 cc na0 =
      ladderChain b1 b2 b3 b4 b5 b6 b7 b8 b9 b10 b11 cc na1 := by
  cases b1
  case true => rfl
  case false =>
  cases b2
  case true => rfl
  case false =>
  cases b3
  case true => rfl
  case false =>
  cases b4
  case true => rfl
  case false =>
  cases b5
  case true => rfl
  case false =>
  cases b6
  case true => rfl
  case false =>
  cases b7
  case true => rfl
  case false =>
  cases b8
  case true => rfl
  case false =>
  cases b9
  case true => rfl
  case false =>
  cases b10
  case true => rfl
  case false =>
  cases b11
  case true => rfl
  case false => simp at h

/-- The ladder of apply_intent_rules is the abstract ladder at its guards. -/
theorem applyIntentRules_next_action (d : IntentDecision) (n : String) :
    (applyIntentRules d n).next_action =
      ladderChain (ruleInfoOnly d) (ruleListIntent d) (ruleAccIntent d)
        (ruleSfaIntent d) (ruleQfIntent d) (rulePaIntent d) (ruleCodeNoBuy d)
        (ruleBuySku d) (ruleBuyContact d) (ruleCommercial d) (ruleTayRobot d)
        d.collect_contact
        (cond (allowedActions.contains d.next_action) d.next_action "ANSWER_ONLY") := rfl

/-- C3 amended: every next_action produced by apply_intent_rules lies in the
fixed five-element vocabulary; whenever any hard rule applies, the resulting
next_action is independent of the next_action the external generator
proposed; and the buy-intent-with-missing-sku rule yields
ASK_FOR_SKU_OR_GROUP whenever no earlier ladder branch (info-only or one of
the dedicated intents) matches. -/
theorem c3_next_action_hard_rules :
    (∀ (d : IntentDecision) (n : String),
      allowedActions.contains (applyIntentRules d n).next_action = true) ∧
    (∀ (d : IntentDecision) (n : String) (a b : String),
      hardRuleApplies d = true →
      (applyIntentRules { d with next_action := a } n).next_action =
        (applyIntentRules { d with next_action := b } n).next_action) ∧
    (∀ (d : IntentDecision) (n : String),
      d.buy_intent = true → d.missing.contains "sku" = true →
      ruleInfoOnly d = false → ruleListIntent d = false → ruleAccIntent d = false →
      ruleSfaIntent d = false → ruleQfIntent d = false → rulePaIntent d = false →
      (applyIntentRules d n).next_action = "ASK_FOR_SKU_OR_GROUP") := by
  refine ⟨?_, ?_, ?_⟩
  · intro d n
    rw [applyIntentRules_next_action]
    apply ladderChain_mem
    rcases Bool.eq_false_or_eq_true (allowedActions.contains d.next_action) with h | h <;>
      rw [h] <;> first | exact h | rfl
  · intro d n a b h
    rw [applyIntentRules_next_action, applyIntentRules_next_action]
    exact ladderChain_override _ _ _ _ _ _ _ _ _ _ _ _ _ _
      (by simpa [hardRuleApplies, Bool.or_assoc] using h)
  · intro d n hbuy hsku h1 h2 h3 h4 h5 h6
    have h7 : ruleCodeNoBuy d = false := by simp [ruleCodeNoBuy, hbuy]
    have h8 : ruleBuySku d = true := by unfold ruleBuySku; rw [hbuy, hsku]; rfl
    rw [applyIntentRules_next_action, h1, h2, h3, h4, h5, h6, h7, h8]
    rfl

/-- Witness for C3 at a concrete decision that reaches the
buy-intent-with-missing-sku rule. -/
theorem c3_next_action_hard_rules_witness :
    (applyIntentRules
        { intent := "OTHER", buy_intent := true, info_only := false,
          topic := "product", missing := ["sku"],
          next_action := "REQUEST_CONTACT_FORM", collect_contact := false }
        "").next_action = "ASK_FOR_SKU_OR_GROUP" :=
  c3_next_action_hard_rules.2.2
    { intent := "OTHER", buy_intent := true, info_only := false,
      topic := "product", missing := ["sku"],
      next_action := "REQUEST_CONTACT_FORM", collect_contact := false }
    "" rfl (by decide) (by decide) (by decide) (by decide) (by decide) (by decide)
    (by decide)

/-! ### C5: slot-fill shapes versus product groups -/

/-- The keyword substrings detect_product_group scans for. -/
def groupPatterns : List String :=
  ["than giu", "tip body", "cach dien", "insulator", "su", "orifice",
   "diffuser", "chup", "nozzle", "bec", "contact tip", "tip"]

/-- detect_product_group misses exactly when every keyword substring is
absent. -/
theorem detectProductGroup_eq_none_of (n : String)
    (h : ∀ p ∈ groupPatterns, hasSubL p.data n.data = false) :
    detectProductGroup n = none := by
  have h1 := h "than giu" (by decide)
  have h2 := h "tip body" (by decide)
  have h3 := h "cach dien" (by decide)
  have h4 := h "insulator" (by decide)
  have h5 := h "su" (by decide)
  have h6 := h "orifice" (by decide)
  have h7 := h "diffuser" (by decide)
  have h8 := h "chup" (by decide)
  have h9 := h "nozzle" (by decide)
  have h10 := h "bec" (by decide)
  have h11 := h "contact tip" (by decide)
  have h12 := h "tip" (by decide)
  simp [detectProductGroup, containsSub, h1, h2, h3, h4, h5, h6, h7, h8, h9,
    h10, h11, h12]

/-- A substring occurrence puts every pattern character into the text. -/
theorem hasSubL_chars (p : List Char) :
    ∀ s : List Char, hasSubL p s = true → ∀ c ∈ p, c ∈ s := by
  intro s
  induction s with
  | nil =>
    intro h c hc
    simp [hasSubL] at h
    subst h
    cases hc
  | cons hd tl ih =>
    intro h c hc
    simp only [hasSubL, Bool.or_eq_true] at h
    rcases h with h | h
    · exact (List.isPrefixOf_iff_prefix.mp h).subset hc
    · exact List.mem_cons_of_mem hd (ih h c hc)

/-- A pattern with a character missing from the text never occurs in it. -/
theorem hasSubL_eq_false_of_missing (p s : List Char) (c : Char) (hc : c ∈ p)
    (hs : c ∉ s) : hasSubL p s = false := by
  rcases Bool.eq_false_or_eq_true (hasSubL p s) with h | h
  · exact absurd (hasSubL_chars p s h c hc) hs
  · exact h

/-- detect_product_group misses on any text whose characters all satisfy a
predicate that each keyword pattern violates somewhere. -/
theorem group_none_of_pred (n : String) (P : Char → Bool)
    (hall : ∀ c ∈ n.data, P c = true)
    (hmiss : ∀ p ∈ groupPatterns, ∃ c ∈ p.data, P c = false) :
    detectProductGroup n = none := by
  apply detectProductGroup_eq_none_of
  intro p hp
  obtain ⟨c, hcp, hPc⟩ := hmiss p hp
  apply hasSubL_eq_false_of_missing p.data n.data c hcp
  intro hcs
  rw [hall c hcs] at hPc
  cases hPc

/-- Dropping the matched prefix length of takeWhile yields dropWhile. -/
theorem drop_takeWhile_length (p : Char → Bool) (l : List Char) :
    l.drop (l.takeWhile p).length = l.dropWhile p := by
  induction l with
  | nil => rfl
  | cons hd tl ih =>
    by_cases hp : p hd
    · simp [List.takeWhile_cons, List.dropWhile_cons, hp, ih]
    · simp [List.takeWhile_cons, List.dropWhile_cons, hp]

/-- Pure-quantity utterances never name a product group. -/
theorem pureQuantity_no_group (m : String) (h : isPureQuantityMessage m = true) :
    detectProductGroup (normalizeText m) = none := by
  unfold isPureQuantityMessage at h
  rw [Bool.and_eq_true] at h
  obtain ⟨-, h⟩ := h
  rw [Bool.or_eq_true, Bool.or_eq_true] at h
  rcases h with (h | h) | h
  · -- entirely digits
    unfold fullDigits16 at h
    rw [Bool.and_eq_true, Bool.and_eq_true] at h
    refine group_none_of_pred _ isDig ?_ (by decide)
    intro c hc
    exact List.all_eq_true.mp h.1.2 c hc
  · -- "mot", optionally followed by spaces and a unit word
    unfold motUnitFull at h
    split at h
    case isFalse => cases h
    case isTrue hpre =>
      obtain ⟨t, ht⟩ := List.isPrefixOf_iff_prefix.mp hpre
      have hdrop : (normalizeText m).data.drop 3 = t := by
        rw [← ht]
        show List.drop (['m','o','t'] : List Char).length (['m','o','t'] ++ t) = t
        exact List.drop_left _ _
      rw [hdrop] at h
      rw [Bool.or_eq_true] at h
      rcases h with h | h
      · -- no unit: the text is exactly mot
        have ht0 : t = [] := by simpa using h
        refine group_none_of_pred _ (fun c => decide (c ∈ (['m','o','t'] : List Char)))
          ?_ (by decide)
        intro c hc
        rw [← ht, ht0] at hc
        simpa using hc
      · cases t with
        | nil => cases h
        | cons c0 t0 =>
          rw [Bool.and_eq_true] at h
          obtain ⟨-, hany⟩ := h
          obtain ⟨u, hu, hdw⟩ :
              ∃ u ∈ pureUnits, (c0 :: t0).dropWhile isSpaceC = u := by
            simpa using hany
          have htu : (c0 :: t0).takeWhile isSpaceC ++ u = c0 :: t0 := by
            rw [← hdw]; exact List.takeWhile_append_dropWhile _ _
          have hallc : ∀ c ∈ (normalizeText m).data,
              (decide (c ∈ (['m','o','t'] : List Char)) || isSpaceC c ||
                decide (c ∈ u)) = true := by
            intro c hc
            rw [← ht, ← htu] at hc
            simp only [List.mem_append] at hc
            rcases hc with hc | hc | hc
            · simp [hc]
            · have := List.mem_takeWhile_imp hc
              simp [this]
            · simp [hc]
          fin_cases hu <;> exact group_none_of_pred _ _ hallc (by decide)
  · -- digits, optional spaces, then a unit word
    unfold digitsUnitFull at h
    rw [Bool.and_eq_true, Bool.and_eq_true] at h
    obtain ⟨-, hany⟩ := h
    obtain ⟨u, hu, hdw⟩ :
        ∃ u ∈ pureUnits,
          (((normalizeText m).data.drop
              ((normalizeText m).data.takeWhile isDig).length).dropWhile isSpaceC) = u := by
      simpa using hany
    rw [drop_takeWhile_length] at hdw
    have h1 : (normalizeText m).data.takeWhile isDig ++
        (((normalizeText m).data.dropWhile isDig).takeWhile isSpaceC ++ u) =
        (normalizeText m).data := by
      rw [← hdw, List.takeWhile_append_dropWhile _ _, List.takeWhile_append_dropWhile _ _]
    have hallc : ∀ c ∈ (normalizeText m).data,
        (isDig c || isSpaceC c || decide (c ∈ u)) = true := by
      intro c hc
      rw [← h1] at hc
      simp only [List.mem_append] at hc
      rcases hc with hc | hc | hc
      · have := List.mem_takeWhile_imp hc
        simp [this]
      · have := List.mem_takeWhile_imp hc
        simp [this]
      · simp [hc]
    fin_cases hu <;> exact group_none_of_pred _ _ hallc (by decide)

/-- Quantity follow-up utterances never name a product group. -/
theorem quantityFollowup_no_group (m : String)
    (h : isQuantityFollowupMessage m = true) :
    detectProductGroup (normalizeText m) = none := by
  cases hg : detectProductGroup (normalizeText m) with
  | none => rfl
  | some g =>
    exfalso
    simp [isQuantityFollowupMessage, hg] at h

/-- Amp-only utterances never name a product group. -/
theorem ampOnly_no_group (m : String) (h : isAmpOnlyMessage m = true) :
    detectProductGroup (normalizeText m) = none := by
  cases hg : detectProductGroup (normalizeText m) with
  | none => rfl
  | some g =>
    exfalso
    simp [isAmpOnlyMessage, hg] at h

/-- C5 counterexample: the utterance "bec tay" names the TIP product group,
yet detect_dialogue_act classifies it as the slot-fill label SLOT_FILL_TYPE
(the type-only shape does not exclude product groups). -/
theorem c5_counterexample :
    detectProductGroup (normalizeText "bec tay") = some "TIP" ∧
      detectDialogueAct "bec tay" = "SLOT_FILL_TYPE" := by
  decide

/-- C5 amended: an utterance that names a product group is never classified
SLOT_FILL_AMP or SLOT_FILL_QUANTITY (those shapes exclude product groups),
though it may still be classified SLOT_FILL_TYPE. -/
theorem c5_group_never_amp_or_quantity_slot_fill (m : String)
    (h : (detectProductGroup (normalizeText m)).isSome = true) :
    detectDialogueAct m ≠ "SLOT_FILL_AMP" ∧
      detectDialogueAct m ≠ "SLOT_FILL_QUANTITY" := by
  unfold detectDialogueAct
  split_ifs with h1 h2 h3 h4 h5
  · exfalso
    rw [ampOnly_no_group m h1] at h
    simp at h
  · exact ⟨by decide, by decide⟩
  · exfalso
    rw [Bool.or_eq_true] at h3
    rcases h3 with hp | hq
    · rw [pureQuantity_no_group m hp] at h
      simp at h
    · rw [quantityFollowup_no_group m hq] at h
      simp at h
  · exact ⟨by decide, by decide⟩
  · exact ⟨by decide, by decide⟩
  · exact ⟨by decide, by decide⟩

/-- Witness for C5 at the group-naming utterance "bec". -/
theorem c5_group_never_amp_or_quantity_slot_fill_witness :
    (detectProductGroup (normalizeText "bec")).isSome = true ∧
      (detectDialogueAct "bec" ≠ "SLOT_FILL_AMP" ∧
        detectDialogueAct "bec" ≠ "SLOT_FILL_QUANTITY") :=
  ⟨by decide, c5_group_never_amp_or_quantity_slot_fill "bec" (by decide)⟩

/-! ### C2: explicit codes and the memory anchor -/

/-- Unless an AFFIRM consumes a pending action carrying its own anchor, the
pending-action disposition leaves the anchor fields of the state alone. -/
theorem apd_anchor_preserved (act : String) (pending : Option PendingActionMem)
    (pg : Option String) (sig : Bool) (st : ResolveSt)
    (h : ∀ pa, pending = some pa → act = "AFFIRM" → pa.action ≠ "" →
      pa.anchor_sku = "") :
    (applyPendingDisposition act pending pg sig st).2.2.1 = st.2.2.1 ∧
      (applyPendingDisposition act pending pg sig st).2.2.2.1 = st.2.2.2.1 := by
  cases pending with
  | none => exact ⟨rfl, rfl⟩
  | some pa =>
    obtain ⟨force, clear, aSku, aUsed, pg2, rp, cons⟩ := st
    simp only [applyPendingDisposition]
    by_cases hA : act = "AFFIRM"
    · rw [if_pos hA]
      by_cases hne : pa.action ≠ ""
      · have hempty := h pa rfl hA hne
        rw [if_pos hne]
        simp [hempty]
      · rw [if_neg hne]
        exact ⟨rfl, rfl⟩
    · rw [if_neg hA]
      split_ifs <;> exact ⟨rfl, rfl⟩

/-- The stored anchor of the C2 scenario memory. -/
def c2Anchor : AnchorMem :=
  ⟨"004002", "TIP", "350A", some false, "bec han 350A"⟩

/-- A session memory with a stored anchor and no pending action. -/
def c2Memory : ShortMem :=
  ⟨c2Anchor, "PRODUCT_LOOKUP", "product", [], defaultPendingRequest, none, [],
    defaultCommercialCtx⟩

/-- C2 counterexample: the utterance "can ma u4167" contains an explicit
D-style code (u4167), yet the resolver ignores it (only digit codes become
skus) and anchors on the stored memory anchor with anchor_used = true. -/
theorem c2_counterexample :
    (parseUserInput "can ma u4167").codes = ["u4167"] ∧
      (resolveRequestWithMemory "can ma u4167" (parseUserInput "can ma u4167")
          c2Memory).anchor_sku = "004002" ∧
      (resolveRequestWithMemory "can ma u4167" (parseUserInput "can ma u4167")
          c2Memory).anchor_used = true :=
  ⟨by decide, rfl, rfl⟩

/-- C2 amended: whenever the utterance yields a non-empty sku list (the
tokin-prefixed digit runs in order of position or, when no tokin pattern
occurs, the bare 5-to-6-digit numeric codes in order of position), the
resolver anchors on the head of that list with anchor_used = false,
regardless of the stored anchor, unless the turn is an AFFIRM consuming a
pending action whose stored action and anchor_sku are both non-empty (then
the pending anchor takes precedence instead). -/
theorem c2_explicit_code_wins (m : String) (mem : ShortMem) (s : String)
    (rest : List String) (hsku : (parseUserInput m).skus = s :: rest)
    (h : ∀ pa, mem.pending_action = some pa → detectDialogueAct m = "AFFIRM" →
      pa.action ≠ "" → pa.anchor_sku = "") :
    (resolveRequestWithMemory m (parseUserInput m) mem).anchor_sku = s ∧
      (resolveRequestWithMemory m (parseUserInput m) mem).anchor_used = false := by
  simp only [resolveRequestWithMemory, hsku]
  exact apd_anchor_preserved _ _ _ _ _ h

/-- Witness for C2 at a concrete numeric-code message. -/
theorem c2_explicit_code_wins_witness :
    (parseUserInput "can ma 111222").skus = ["111222"] ∧
      ((resolveRequestWithMemory "can ma 111222" (parseUserInput "can ma 111222")
            c2Memory).anchor_sku = "111222" ∧
        (resolveRequestWithMemory "can ma 111222" (parseUserInput "can ma 111222")
            c2Memory).anchor_used = false) :=
  ⟨by decide,
   c2_explicit_code_wins "can ma 111222" c2Memory "111222" [] (by decide)
     (by intro pa hpa hact hne; simp [c2Memory] at hpa)⟩

/-! ### C4: pending-action disposition -/

/-- A value already present survives the rest of the gap-filling fold. -/
theorem fgStep_foldl_keeps (k : String) (v : CVal) :
    ∀ (tl : List (String × CVal)) (acc : List (String × CVal)),
      lookupC acc k = some v → lookupC (tl.foldl fgStep acc) k = some v := by
  intro tl
  induction tl with
  | nil => intro acc h; exact h
  | cons hd tl ih =>
    intro acc h
    show lookupC (tl.foldl fgStep (fgStep acc hd)) k = some v
    apply ih
    unfold fgStep
    by_cases hk : hd.1 = k
    · rw [hk, h]
      simp
      exact h
    · split
      · rw [lookupC_setC_other acc hd.1 hd.2 k (fun he => hk (Eq.symm he))]
        exact h
      · exact h

/-- The gap-filling merge copies a truthy pending value into a key the base
map does not bind. -/
theorem fillGapsC_lookup (k : String) (v : CVal) :
    ∀ (pend : List (String × CVal)) (base : List (String × CVal)),
      lookupC base k = none → lookupC pend k = some v → v.truthy = true →
      lookupC (fillGapsC base pend) k = some v := by
  intro pend
  induction pend with
  | nil => intro base _ hp; cases hp
  | cons hd tl ih =>
    intro base hb hp ht
    show lookupC (tl.foldl fgStep (fgStep base hd)) k = some v
    by_cases hk : hd.1 = k
    · have hv : hd.2 = v := by
        unfold lookupC at hp
        rw [if_pos hk] at hp
        exact Option.some.inj hp
      apply fgStep_foldl_keeps
      unfold fgStep
      rw [hk, hv, ht, hb]
      simp
      exact lookupC_setC_same base k v
    · have hp2 : lookupC tl k = some v := by
        unfold lookupC at hp
        rw [if_neg hk] at hp
        exact hp
      apply ih
      · unfold fgStep
        split
        · rw [lookupC_setC_other base hd.1 hd.2 k (fun he => hk (Eq.symm he))]
          exact hb
        · exact hb
      · exact hp2
      · exact ht

/-- The AFFIRM branch of the disposition with a non-empty pending intent:
the pending action becomes the forced intent, the clear flag is set, the
pending anchor and required parts replace the state values when present,
the pending group fills only an unset parsed group, and the constraints are
gap-filled. -/
theorem apd_affirm_facts (pa : PendingActionMem) (pg : Option String) (sig : Bool)
    (st : ResolveSt) (hne : pa.action ≠ "") :
    (applyPendingDisposition "AFFIRM" (some pa) pg sig st).1 = pa.action ∧
      (applyPendingDisposition "AFFIRM" (some pa) pg sig st).2.1 = true ∧
      (pa.anchor_sku ≠ "" →
        (applyPendingDisposition "AFFIRM" (some pa) pg sig st).2.2.1 = pa.anchor_sku ∧
          (applyPendingDisposition "AFFIRM" (some pa) pg sig st).2.2.2.1 = true) ∧
      (pa.product_group ≠ "" → pg = none →
        (applyPendingDisposition "AFFIRM" (some pa) pg sig st).2.2.2.2.1 =
          pa.product_group) ∧
      (pa.required_parts ≠ [] →
        (applyPendingDisposition "AFFIRM" (some pa) pg sig st).2.2.2.2.2.1 =
          pa.required_parts) ∧
      (applyPendingDisposition "AFFIRM" (some pa) pg sig st).2.2.2.2.2.2 =
        fillGapsC st.2.2.2.2.2.2 pa.constraints := by
  obtain ⟨force, clear, aSku, aUsed, pg2, rp, cons⟩ := st
  simp only [applyPendingDisposition, if_pos rfl, if_pos hne]
  refine ⟨rfl, rfl, ?_, ?_, ?_, rfl⟩
  · intro hsku
    exact ⟨if_pos hsku, if_pos hsku⟩
  · intro hpg hpgnone
    simp [hpg, hpgnone]
  · intro hrp
    simp [hrp]

/-- Any slot-fill act or a NEGATE clears a present pending action. -/
theorem apd_slotfill_clears (pa : PendingActionMem) (pg : Option String)
    (sig : Bool) (st : ResolveSt) (act : String)
    (h : act = "SLOT_FILL_AMP" ∨ act = "SLOT_FILL_TYPE" ∨
      act = "SLOT_FILL_QUANTITY" ∨ act = "NEGATE") :
    (applyPendingDisposition act (some pa) pg sig st).2.1 = true := by
  obtain ⟨force, clear, aSku, aUsed, pg2, rp, cons⟩ := st
  rcases h with h | h | h | h <;> subst h <;> simp [applyPendingDisposition]

/-- A NEW_INTENT act clears a present pending action exactly when the
independent-signal disjunction holds. -/
theorem apd_new_intent (pa : PendingActionMem) (pg : Option String) (sig : Bool)
    (st : ResolveSt) :
    (applyPendingDisposition "NEW_INTENT" (some pa) pg sig st).2.1 = sig := by
  obtain ⟨force, clear, aSku, aUsed, pg2, rp, cons⟩ := st
  simp [applyPendingDisposition]

/-- The pending action of the C4 scenario: a stored bundle offer with its
own anchor, parts and constraints. -/
def c4Pending : PendingActionMem :=
  ⟨"ACCESSORY_BUNDLE_LOOKUP", ["TIP_BODY"], "999999", "TIP",
    [("amp", CVal.s "500A")]⟩

/-- A session memory holding the C4 pending action. -/
def c4Memory : ShortMem :=
  ⟨⟨"004002", "TIP", "350A", some false, "bec han 350A"⟩, "PRODUCT_LOOKUP",
    "product", [], defaultPendingRequest, some c4Pending, [],
    defaultCommercialCtx⟩

/-- C4 counterexample: on the AFFIRM turn "ok 004002" the current turn sets
its own anchor slot (004002), yet the pending anchor replaces it instead of
only filling an unset slot. -/
theorem c4_counterexample :
    detectDialogueAct "ok 004002" = "AFFIRM" ∧
      (parseUserInput "ok 004002").skus = ["004002"] ∧
      (resolveRequestWithMemory "ok 004002" (parseUserInput "ok 004002")
          c4Memory).anchor_sku = "999999" :=
  ⟨by decide, by decide, rfl⟩

/-- C4 amended: with a pending action present, an AFFIRM with a non-empty
pending intent forces that intent, sets the clear flag, replaces the anchor
and required parts with the pending values when those are present, fills the
product group only when the turn parsed none, and gap-fills constraints; any
slot-fill act or NEGATE clears the pending action; a NEW_INTENT clears it
exactly when the utterance carries an independent signal. -/
theorem c4_pending_action_disposition (m : String) (mem : ShortMem) :
    (∀ pa, mem.pending_action = some pa → detectDialogueAct m = "AFFIRM" →
      pa.action ≠ "" →
      (resolveRequestWithMemory m (parseUserInput m) mem).force_intent = pa.action ∧
        (resolveRequestWithMemory m (parseUserInput m) mem).clear_pending_action = true ∧
        (pa.anchor_sku ≠ "" →
          (resolveRequestWithMemory m (parseUserInput m) mem).anchor_sku =
              pa.anchor_sku ∧
            (resolveRequestWithMemory m (parseUserInput m) mem).anchor_used = true) ∧
        (pa.product_group ≠ "" → (parseUserInput m).product_group = none →
          (resolveRequestWithMemory m (parseUserInput m) mem).product_group =
            pa.product_group) ∧
        (pa.required_parts ≠ [] →
          (resolveRequestWithMemory m (parseUserInput m) mem).required_parts =
            pa.required_parts) ∧
        (∀ k v, lookupC pa.constraints k = some v → v.truthy = true →
          lookupC (overlayParsed mem.last_user_constraints
              (parseUserInput m).constraints) k = none →
          lookupC (resolveRequestWithMemory m (parseUserInput m) mem).constraints k =
            some v)) ∧
    (∀ pa, mem.pending_action = some pa →
      (detectDialogueAct m = "SLOT_FILL_AMP" ∨ detectDialogueAct m = "SLOT_FILL_TYPE" ∨
        detectDialogueAct m = "SLOT_FILL_QUANTITY" ∨ detectDialogueAct m = "NEGATE") →
      (resolveRequestWithMemory m (parseUserInput m) mem).clear_pending_action = true) ∧
    (∀ pa, mem.pending_action = some pa → detectDialogueAct m = "NEW_INTENT" →
      (resolveRequestWithMemory m (parseUserInput m) mem).clear_pending_action =
        newIntentSignal m (normalizeText m)) := by
  have hnorm : (if (parseUserInput m).normalized ≠ "" then (parseUserInput m).normalized
      else normalizeText m) = normalizeText m := by
    split <;> rfl
  refine ⟨?_, ?_, ?_⟩
  · intro pa hpa hact hne
    simp only [resolveRequestWithMemory, hpa, hact]
    refine ⟨(apd_affirm_facts pa _ _ _ hne).1, (apd_affirm_facts pa _ _ _ hne).2.1,
      (apd_affirm_facts pa _ _ _ hne).2.2.1, (apd_affirm_facts pa _ _ _ hne).2.2.2.1,
      (apd_affirm_facts pa _ _ _ hne).2.2.2.2.1, ?_⟩
    intro k v hk ht hb
    rw [(apd_affirm_facts pa _ _ _ hne).2.2.2.2.2]
    exact fillGapsC_lookup k v pa.constraints _ hb hk ht
  · intro pa hpa hacts
    simp only [resolveRequestWithMemory, hpa]
    rcases hacts with h | h | h | h <;> rw [h] <;>
      exact apd_slotfill_clears pa _ _ _ _ (by simp)
  · intro pa hpa hact
    simp only [resolveRequestWithMemory, hpa, hact, hnorm]
    exact apd_new_intent pa _ _ _

/-- Witness for C4 at the AFFIRM turn "muon" against the stored pending
bundle offer. -/
theorem c4_pending_action_disposition_witness :
    (resolveRequestWithMemory "muon" (parseUserInput "muon") c4Memory).force_intent =
        c4Pending.action ∧
      (resolveRequestWithMemory "muon" (parseUserInput "muon")
          c4Memory).clear_pending_action = true :=
  ⟨(((c4_pending_action_disposition "muon" c4Memory).1 c4Pending rfl (by decide)
      (by decide))).1,
   (((c4_pending_action_disposition "muon" c4Memory).1 c4Pending rfl (by decide)
      (by decide))).2.1⟩

/-- The anchor flag of the guard: a selected sku or a selected group. -/
def guardHasSelected (g : GuardState) : Bool :=
  g.selected_sku ≠ "" || g.selected_group ≠ ""

/-- The core form conditions of the guard: anchor, known quantity, missing
contact, not single-unit, not info-only. -/
def guardCore (g : GuardState) : Bool :=
  guardHasSelected g && g.order_quantity.isSome && g.contact = ""
    && !g.is_single_unit && !g.is_info_only

/-- The quantity-turn override of the guard: a pure-quantity or
quantity-followup message together with the core form conditions. -/
def guardQuantityTurn (g : GuardState) : Bool :=
  (isPureQuantityMessage g.user_message || isQuantityFollowupMessage g.user_message)
    && guardHasSelected g && g.order_quantity.isSome && g.contact = ""
    && !g.is_single_unit && !g.is_info_only

/-- A guard state of a lookup turn that meets every form condition of the
claim. -/
def c6State : GuardState :=
  { intent_label := "PRODUCT_LOOKUP", next_action := "ANSWER_ONLY",
    buy_intent := true, is_close_intent := false, is_single_unit := false,
    is_info_only := false, is_asking_price := false, is_availability_query := false,
    request_contact := false, collect_contact := false, entities_quantity := none,
    selected_sku := "004002", selected_group := "", order_quantity := some 10,
    contact := "", user_message := "" }

/-- C6 counterexample: a PRODUCT_LOOKUP turn satisfies every condition of
the claimed biconditional (anchor, quantity, no contact, not single-unit,
not info-only, buy intent, no ASK next action, no price or availability
query), yet should_show_form comes out false. -/
theorem c6_counterexample :
    c6State.selected_sku ≠ "" ∧ c6State.order_quantity.isSome = true ∧
      c6State.contact = "" ∧ c6State.is_single_unit = false ∧
      c6State.is_info_only = false ∧ c6State.buy_intent = true ∧
      c6State.next_action ≠ "ASK_FOR_SKU_OR_GROUP" ∧
      c6State.is_asking_price = false ∧ c6State.is_availability_query = false ∧
      (guardFinal none [] c6State).should_show_form = false := by
  decide

/-- C6 amended: should_show_form equals the claimed conjunction only after
two further rules: a pure-quantity or quantity-followup turn meeting the
core conditions forces the form on even for price or availability queries
or an ASK next action, and the lookup intents PRODUCT_LOOKUP, TYPE_SWITCH,
ACCESSORY_LOOKUP and ACCESSORY_BUNDLE_LOOKUP force it off last. -/
theorem c6_show_form_characterization (env : Option String)
    (items : List (List (String × String))) (g : GuardState) :
    (guardFinal env items g).should_show_form =
      (!(decide (g.intent_label = "PRODUCT_LOOKUP")
          || decide (g.intent_label = "TYPE_SWITCH")
          || decide (g.intent_label = "ACCESSORY_LOOKUP")
          || decide (g.intent_label = "ACCESSORY_BUNDLE_LOOKUP")) &&
        (guardQuantityTurn g ||
          (!(g.is_asking_price || g.is_availability_query) &&
            (!(decide (g.next_action = "ASK_FOR_SKU_OR_GROUP")) &&
              (guardCore g &&
                (g.buy_intent || g.is_close_intent ||
                  (guardFinal env items g).request_contact)))))) := by
  simp only [guardFinal, guardQuantityTurn, guardCore, guardHasSelected]
  by_cases hask : g.next_action = "ASK_FOR_SKU_OR_GROUP" <;>
    by_cases hpa : (g.is_asking_price || g.is_availability_query) = true <;>
    by_cases hq : ((isPureQuantityMessage g.user_message
        || isQuantityFollowupMessage g.user_message)
      && (g.selected_sku ≠ "" || g.selected_group ≠ "") && g.order_quantity.isSome
      && g.contact = "" && !g.is_single_unit && !g.is_info_only) = true <;>
    by_cases hbl : (g.intent_label = "PRODUCT_LOOKUP"
        || g.intent_label = "TYPE_SWITCH"
        || g.intent_label = "ACCESSORY_LOOKUP"
        || g.intent_label = "ACCESSORY_BUNDLE_LOOKUP" : Bool) = true <;>
    simp [hask, hpa, hq, hbl]

/-- A quantity-followup guard state with no prior contact request, used on
the bulk-threshold rules. -/
def c7State : GuardState :=
  { intent_label := "QUANTITY_FOLLOWUP", next_action := "ANSWER_ONLY",
    buy_intent := true, is_close_intent := false, is_single_unit := false,
    is_info_only := false, is_asking_price := false, is_availability_query := false,
    request_contact := false, collect_contact := false, entities_quantity := none,
    selected_sku := "004002", selected_group := "", order_quantity := some 500,
    contact := "", user_message := "" }

/-- C7 counterexample: with the environment override BULK_QTY_THRESHOLD set
to the digit string 0 a threshold is configured (it resolves to 0) and the
resolved quantity 500 is at or above it, yet neither request_contact nor
collect_contact is forced on, because a zero threshold is falsy. -/
theorem c7_counterexample :
    getBulkQtyThreshold (some "0") [] = some 0 ∧
      guardQuantityValue c7State = some 500 ∧
      (guardFinal (some "0") [] c7State).request_contact = false ∧
      (guardFinal (some "0") [] c7State).collect_contact = false := by
  decide

/-- C7 amended: whenever the configured bulk threshold is nonzero and the
resolved quantity is at or above it, the guard forces request_contact and
collect_contact to true. -/
theorem c7_bulk_forces_contact (env : Option String)
    (items : List (List (String × String))) (g : GuardState) (t q : Int)
    (ht : getBulkQtyThreshold env items = some t) (ht0 : t ≠ 0)
    (hq : guardQuantityValue g = some q) (hle : t ≤ q) :
    (guardFinal env items g).request_contact = true ∧
      (guardFinal env items g).collect_contact = true := by
  simp [guardFinal, ht, hq, ht0, hle]

/-- Witness for C7 with threshold 50 against a quantity of 500. -/
theorem c7_bulk_forces_contact_witness :
    (guardFinal (some "50") [] c7State).request_contact = true ∧
      (guardFinal (some "50") [] c7State).collect_contact = true :=
  c7_bulk_forces_contact (some "50") [] c7State 50 500 (by decide) (by decide)
    (by decide) (by decide)

end B2B
